import Mathlib

/-!
# 2xSaI software filter (gfx/filters/2xsai.c)

A shallow embedding of the RGB565 2xSaI upscaler: the packed colour arithmetic,
the sixteen-sample neighbourhood, the per-pixel rule engine, the two nested
loops of `twoxsai_generic_rgb565` and the row-band scheduler
`twoxsai_generic_packets`.

Conventions of the embedding
* `uint16_t` / `unsigned` / `uint32_t` values are natural numbers; 32-bit
  unsigned arithmetic is written with an explicit `% 4294967296`, the
  truncation to `uint16_t` with `% 65536`.
* Pointers into the source and the destination frame are integers counted in
  16-bit pixels from the start of the respective buffer (`input`, `output`).
  A byte offset is turned into a pixel offset by dividing by the pixel size.
* The source frame is a function from pixel addresses to stored values, so a
  read outside the frame is visible as a read at an address outside
  `[0, height * stride)`.
* The function writes through a `uint32_t` store of two packed pixels; the
  embedding records the two 16-bit cells of that store in little-endian order.
-/

namespace TwoXSai

/-! ## Constants -/

/-- The scale factor `TWOXSAI_SCALE`. -/
def TWOXSAI_SCALE : Nat := 2

/-- Modelled from the spec: `softfilter.h` is not part of the excerpt; the pixel
format is the 16-bit 5/6/5 packed colour, so one pixel occupies two bytes
(`SOFTFILTER_BPP_RGB565`). -/
def SOFTFILTER_BPP_RGB565 : Nat := 2

/-- The fields of `struct filter_data` that the filter reads: the worker count
and the input format chosen at creation (the `workers` array is scratch space
for the thread data). -/
structure filter_data where
  threads : Nat
  in_fmt : Nat
deriving DecidableEq, Repr

/-- The size query `twoxsai_generic_output`: `(*out_width, *out_height)`, both
products taken in 32-bit unsigned arithmetic; `data` is the filter instance. -/
def twoxsai_generic_output (_data : filter_data) (width height : Nat) : Nat × Nat :=
  ((width * TWOXSAI_SCALE) % 4294967296, (height * TWOXSAI_SCALE) % 4294967296)

/-! ## Colour math -/

/-- The 2-way blend `interpolate_rgb565`: unpack both words into the
`0x7e0f81f` layout, add, halve, mask and fold the halves back. -/
def interpolate_rgb565 (A B : Nat) : Nat :=
  let A1 := A ||| ((A <<< 16) % 4294967296)
  let A2 := A1 &&& 0x7e0f81f
  let B1 := B ||| ((B <<< 16) % 4294967296)
  let B2 := B1 &&& 0x7e0f81f
  let r := ((A2 + B2) % 4294967296) >>> 1
  let r1 := r &&& 0x7e0f81f
  (r1 ||| (r1 >>> 16)) % 65536

/-- The 4-way blend `interpolate2_rgb565`. -/
def interpolate2_rgb565 (A B C D : Nat) : Nat :=
  let A1 := A ||| ((A <<< 16) % 4294967296)
  let A2 := A1 &&& 0x7e0f81f
  let B1 := B ||| ((B <<< 16) % 4294967296)
  let B2 := B1 &&& 0x7e0f81f
  let C1 := C ||| ((C <<< 16) % 4294967296)
  let C2 := C1 &&& 0x7e0f81f
  let D1 := D ||| ((D <<< 16) % 4294967296)
  let D2 := D1 &&& 0x7e0f81f
  let r := ((A2 + B2 + C2 + D2) % 4294967296) >>> 2
  let r1 := r &&& 0x7e0f81f
  (r1 ||| (r1 >>> 16)) % 65536

/-- The corner score `result1_rgb565`. -/
def result1_rgb565 (A B C D : Nat) : Int :=
  let x0 : Int := 0
  let y0 : Int := 0
  let r0 : Int := 0
  let x1 := if A = C then x0 + 1 else x0
  let y1 := if A = C then y0 else if B = C then y0 + 1 else y0
  let x2 := if A = D then x1 + 1 else x1
  let y2 := if A = D then y1 else if B = D then y1 + 1 else y1
  let r1 := if x2 ≤ 1 then r0 + 1 else r0
  let r2 := if y2 ≤ 1 then r1 - 1 else r1
  r2

/-- The corner score `result2_rgb565`. -/
def result2_rgb565 (A B C D : Nat) : Int :=
  let x0 : Int := 0
  let y0 : Int := 0
  let r0 : Int := 0
  let x1 := if A = C then x0 + 1 else x0
  let y1 := if A = C then y0 else if B = C then y0 + 1 else y0
  let x2 := if A = D then x1 + 1 else x1
  let y2 := if A = D then y1 else if B = D then y1 + 1 else y1
  let r1 := if x2 ≤ 1 then r0 - 1 else r0
  let r2 := if y2 ≤ 1 then r1 + 1 else r1
  r2

/-- Channel in bits 0-4 of a packed pixel. -/
def chan_lo (p : Nat) : Nat := p % 32

/-- Channel in bits 5-10 of a packed pixel. -/
def chan_mid (p : Nat) : Nat := (p / 32) % 64

/-- Channel in bits 11-15 of a packed pixel. -/
def chan_hi (p : Nat) : Nat := (p / 2048) % 32

/-! ## Neighbourhood and rule engine -/

/-- The fifteen locals bound by `twoxsai_declare_variables`, in the order of the
declarations. -/
structure Nbhd (α : Type) where
  colorI : α
  colorE : α
  colorF : α
  colorJ : α
  colorG : α
  colorA : α
  colorB : α
  colorK : α
  colorH : α
  colorC : α
  colorD : α
  colorL : α
  colorM : α
  colorN : α
  colorO : α
deriving DecidableEq, Repr

/-- The three synthesized pixels of one source pixel. -/
structure Products where
  product : Nat
  product1 : Nat
  product2 : Nat
deriving DecidableEq, Repr

/-- The if/else chain of the inner loop body of `twoxsai_generic_rgb565`
(between the declaration of the locals and the two stores). -/
def twoxsai_products (n : Nbhd Nat) : Products :=
  if n.colorA = n.colorD ∧ n.colorB ≠ n.colorC then
    { product :=
        if (n.colorA = n.colorE ∧ n.colorB = n.colorL) ∨
            (n.colorA = n.colorC ∧ n.colorA = n.colorF ∧
              n.colorB ≠ n.colorE ∧ n.colorB = n.colorJ) then
          n.colorA
        else
          interpolate_rgb565 n.colorA n.colorB
      product1 :=
        if (n.colorA = n.colorG ∧ n.colorC = n.colorO) ∨
            (n.colorA = n.colorB ∧ n.colorA = n.colorH ∧
              n.colorG ≠ n.colorC ∧ n.colorC = n.colorM) then
          n.colorA
        else
          interpolate_rgb565 n.colorA n.colorC
      product2 := n.colorA }
  else if n.colorB = n.colorC ∧ n.colorA ≠ n.colorD then
    { product :=
        if (n.colorB = n.colorF ∧ n.colorA = n.colorH) ∨
            (n.colorB = n.colorE ∧ n.colorB = n.colorD ∧
              n.colorA ≠ n.colorF ∧ n.colorA = n.colorI) then
          n.colorB
        else
          interpolate_rgb565 n.colorA n.colorB
      product1 :=
        if (n.colorC = n.colorH ∧ n.colorA = n.colorF) ∨
            (n.colorC = n.colorG ∧ n.colorC = n.colorD ∧
              n.colorA ≠ n.colorH ∧ n.colorA = n.colorI) then
          n.colorC
        else
          interpolate_rgb565 n.colorA n.colorC
      product2 := n.colorB }
  else if n.colorA = n.colorD ∧ n.colorB = n.colorC then
    if n.colorA = n.colorB then
      { product := n.colorA, product1 := n.colorA, product2 := n.colorA }
    else
      let r0 : Int := 0
      let product1 := interpolate_rgb565 n.colorA n.colorC
      let product := interpolate_rgb565 n.colorA n.colorB
      let r1 := r0 + result1_rgb565 n.colorA n.colorB n.colorG n.colorE
      let r2 := r1 + result2_rgb565 n.colorB n.colorA n.colorK n.colorF
      let r3 := r2 + result2_rgb565 n.colorB n.colorA n.colorH n.colorN
      let r4 := r3 + result1_rgb565 n.colorA n.colorB n.colorL n.colorO
      { product := product
        product1 := product1
        product2 :=
          if r4 > 0 then n.colorA
          else if r4 < 0 then n.colorB
          else interpolate2_rgb565 n.colorA n.colorB n.colorC n.colorD }
  else
    { product2 := interpolate2_rgb565 n.colorA n.colorB n.colorC n.colorD
      product :=
        if n.colorA = n.colorC ∧ n.colorA = n.colorF ∧
            n.colorB ≠ n.colorE ∧ n.colorB = n.colorJ then
          n.colorA
        else if n.colorB = n.colorE ∧ n.colorB = n.colorD ∧
            n.colorA ≠ n.colorF ∧ n.colorA = n.colorI then
          n.colorB
        else
          interpolate_rgb565 n.colorA n.colorB
      product1 :=
        if n.colorA = n.colorB ∧ n.colorA = n.colorH ∧
            n.colorG ≠ n.colorC ∧ n.colorC = n.colorM then
          n.colorA
        else if n.colorC = n.colorG ∧ n.colorC = n.colorD ∧
            n.colorA ≠ n.colorH ∧ n.colorA = n.colorI then
          n.colorC
        else
          interpolate_rgb565 n.colorA n.colorC }

/-- The 2x2 block of one source pixel as the two stores of the loop body lay it
out: `(colorA, product)` on the upper row, `(product1, product2)` below. -/
structure Block where
  top_left : Nat
  top_right : Nat
  bottom_left : Nat
  bottom_right : Nat
deriving DecidableEq, Repr

/-- The block handed to the two `twoxsai_write2_rgb565` calls of the loop body. -/
def twoxsai_block (n : Nbhd Nat) : Block :=
  let p := twoxsai_products n
  { top_left := n.colorA, top_right := p.product,
    bottom_left := p.product1, bottom_right := p.product2 }

/-! ### The decision procedure as the specification words it -/

/-- The four cases of the specification's decision procedure. -/
inductive RuleCase where
  | diagonal
  | antidiagonal
  | both
  | general
deriving DecidableEq, Repr

/-- Classification of a neighbourhood, first matching case wins. -/
def spec_case (n : Nbhd Nat) : RuleCase :=
  if n.colorA = n.colorD ∧ n.colorB ≠ n.colorC then RuleCase.diagonal
  else if n.colorB = n.colorC ∧ n.colorA ≠ n.colorD then RuleCase.antidiagonal
  else if n.colorA = n.colorD ∧ n.colorB = n.colorC then RuleCase.both
  else RuleCase.general

/-- The specification's rules for one case, over named colour-math primitives
`blend2`, `blend4`, `score_forward`, `score_backward` and the fifteen samples. -/
def spec_rules (blend2 : Nat → Nat → Nat) (blend4 : Nat → Nat → Nat → Nat → Nat)
    (score_forward score_backward : Nat → Nat → Nat → Nat → Int)
    (I E F J G A B K H C D L M N O : Nat) : RuleCase → Block
  | RuleCase.diagonal =>
    { top_left := A
      top_right :=
        if (A = E ∧ B = L) ∨ (A = C ∧ A = F ∧ B ≠ E ∧ B = J) then A else blend2 A B
      bottom_left :=
        if (A = G ∧ C = O) ∨ (A = B ∧ A = H ∧ G ≠ C ∧ C = M) then A else blend2 A C
      bottom_right := A }
  | RuleCase.antidiagonal =>
    { top_left := A
      top_right :=
        if (B = F ∧ A = H) ∨ (B = E ∧ B = D ∧ A ≠ F ∧ A = I) then B else blend2 A B
      bottom_left :=
        if (C = H ∧ A = F) ∨ (C = G ∧ C = D ∧ A ≠ H ∧ A = I) then C else blend2 A C
      bottom_right := B }
  | RuleCase.both =>
    if A = B then
      { top_left := A, top_right := A, bottom_left := A, bottom_right := A }
    else
      { top_left := A
        top_right := blend2 A B
        bottom_left := blend2 A C
        bottom_right :=
          if score_forward A B G E + score_backward B A K F
              + score_backward B A H N + score_forward A B L O > 0 then A
          else if score_forward A B G E + score_backward B A K F
              + score_backward B A H N + score_forward A B L O < 0 then B
          else blend4 A B C D }
  | RuleCase.general =>
    { top_left := A
      top_right :=
        if A = C ∧ A = F ∧ B ≠ E ∧ B = J then A
        else if B = E ∧ B = D ∧ A ≠ F ∧ A = I then B
        else blend2 A B
      bottom_left :=
        if A = B ∧ A = H ∧ G ≠ C ∧ C = M then A
        else if C = G ∧ C = D ∧ A ≠ H ∧ A = I then C
        else blend2 A C
      bottom_right := blend4 A B C D }

/-- The specification's output block: classify, then apply the rules of the
first matching case. -/
def spec_block (blend2 : Nat → Nat → Nat) (blend4 : Nat → Nat → Nat → Nat → Nat)
    (score_forward score_backward : Nat → Nat → Nat → Nat → Int)
    (n : Nbhd Nat) : Block :=
  spec_rules blend2 blend4 score_forward score_backward
    n.colorI n.colorE n.colorF n.colorJ n.colorG n.colorA n.colorB n.colorK
    n.colorH n.colorC n.colorD n.colorL n.colorM n.colorN n.colorO (spec_case n)

/-! ## Neighbourhood sampler -/

/-- A `uint16_t` load from the source frame. -/
def load16 (mem : Int → Nat) (a : Int) : Nat := mem a % 65536

/-- The fifteen addresses dereferenced by `twoxsai_declare_variables(uint16_t,
in, nextline)`, each written as the macro writes it. -/
def twoxsai_sample_addrs (inp : Int) (nextline : Nat) : Nbhd Int :=
  { colorI := inp - nextline - 1
    colorE := inp - nextline + 0
    colorF := inp - nextline + 1
    colorJ := inp - nextline + 2
    colorG := inp - 1
    colorA := inp + 0
    colorB := inp + 1
    colorK := inp + 2
    colorH := inp + nextline - 1
    colorC := inp + nextline + 0
    colorD := inp + nextline + 1
    colorL := inp + nextline + 2
    colorM := inp + nextline + nextline - 1
    colorN := inp + nextline + nextline + 0
    colorO := inp + nextline + nextline + 1 }

/-- Apply a function to every sample of a neighbourhood. -/
def Nbhd.map {α β : Type} (f : α → β) (n : Nbhd α) : Nbhd β :=
  { colorI := f n.colorI, colorE := f n.colorE, colorF := f n.colorF, colorJ := f n.colorJ
    colorG := f n.colorG, colorA := f n.colorA, colorB := f n.colorB, colorK := f n.colorK
    colorH := f n.colorH, colorC := f n.colorC, colorD := f n.colorD, colorL := f n.colorL
    colorM := f n.colorM, colorN := f n.colorN, colorO := f n.colorO }

/-- The samples of a neighbourhood in declaration order. -/
def Nbhd.toList {α : Type} (n : Nbhd α) : List α :=
  [n.colorI, n.colorE, n.colorF, n.colorJ, n.colorG, n.colorA, n.colorB, n.colorK,
   n.colorH, n.colorC, n.colorD, n.colorL, n.colorM, n.colorN, n.colorO]

/-- The macro `twoxsai_declare_variables`: the fifteen loaded values. -/
def twoxsai_declare_variables (mem : Int → Nat) (inp : Int) (nextline : Nat) : Nbhd Nat :=
  (twoxsai_sample_addrs inp nextline).map (load16 mem)

/-! ## Stores and loops -/

/-- The store `twoxsai_write2_rgb565`: one 32-bit word `val0 | val1 << 16`,
recorded as the two 16-bit cells it covers (low half at `out`). -/
def twoxsai_write2_rgb565 (out : Int) (val0 val1 : Nat) : List (Int × Nat) :=
  let w := val0 ||| ((val1 <<< 16) % 4294967296)
  [(out, w % 65536), (out + 1, (w >>> 16) % 65536)]

/-- The stride `nextline` chosen once per call of `twoxsai_generic_rgb565`. -/
def twoxsai_nextline (last : Nat) (src_stride : Nat) : Nat :=
  if last ≠ 0 then 0 else src_stride

/-- The stores of one iteration of the inner loop. -/
def twoxsai_pixel_stores (mem : Int → Nat) (nextline dst_stride : Nat)
    (inp out : Int) : List (Int × Nat) :=
  let n := twoxsai_declare_variables mem inp nextline
  let p := twoxsai_products n
  twoxsai_write2_rgb565 out n.colorA p.product ++
    twoxsai_write2_rgb565 (out + dst_stride) p.product1 p.product2

/-- The loads of one iteration of the inner loop. -/
def twoxsai_pixel_loads (nextline : Nat) (inp : Int) (_out : Int) : List Int :=
  (twoxsai_sample_addrs inp nextline).toList

/-- The inner loop `for (finish = width; finish; finish -= 1)`, with `++in` and
`out += 2` after each iteration; `body` is what one iteration emits. -/
def twoxsai_row {β : Type} (body : Int → Int → List β) : Nat → Int → Int → List β
  | 0, _, _ => []
  | finish + 1, inp, out => body inp out ++ twoxsai_row body finish (inp + 1) (out + 2)

/-- The outer loop `for (; height; height--)`, with `src += src_stride` and
`dst += 2 * dst_stride` after each row. -/
def twoxsai_rows {β : Type} (body : Int → Int → List β) (width src_stride dst_stride : Nat) :
    Nat → Int → Int → List β
  | 0, _, _ => []
  | height + 1, src, dst =>
    twoxsai_row body width src dst ++
      twoxsai_rows body width src_stride dst_stride height
        (src + src_stride) (dst + ((2 * dst_stride) % 4294967296 : Nat))

/-- The stores of `twoxsai_generic_rgb565`, in program order. -/
def twoxsai_generic_rgb565 (mem : Int → Nat) (width height : Nat) (_first last : Nat)
    (src : Int) (src_stride : Nat) (dst : Int) (dst_stride : Nat) : List (Int × Nat) :=
  let nextline := twoxsai_nextline last src_stride
  twoxsai_rows (twoxsai_pixel_stores mem nextline dst_stride) width src_stride dst_stride
    height src dst

/-- The source addresses `twoxsai_generic_rgb565` loads from, in program order. -/
def twoxsai_generic_rgb565_loads (width height : Nat) (_first last : Nat)
    (src : Int) (src_stride : Nat) (dst : Int) (dst_stride : Nat) : List Int :=
  let nextline := twoxsai_nextline last src_stride
  twoxsai_rows (twoxsai_pixel_loads nextline) width src_stride dst_stride height src dst

/-! ## Tile scheduler -/

/-- The fields of `struct softfilter_thread_data` that `twoxsai_generic_packets`
fills in. Pointers are byte offsets from `output` and `input`; `first` and
`last` are C integers read as booleans (non-zero is true). -/
structure softfilter_thread_data where
  out_data : Int
  in_data : Int
  out_pitch : Nat
  in_pitch : Nat
  width : Nat
  height : Nat
  first : Nat
  last : Nat
deriving DecidableEq, Repr

/-- The local `y_start = (height * i) / filt->threads` (32-bit unsigned). -/
def y_start (threads height i : Nat) : Nat :=
  ((height * i) % 4294967296) / threads

/-- The local `y_end = (height * (i + 1)) / filt->threads` (32-bit unsigned). -/
def y_end (threads height i : Nat) : Nat :=
  ((height * (i + 1)) % 4294967296) / threads

/-- One iteration of the loop of `twoxsai_generic_packets`: the thread data of
worker `i`. -/
def twoxsai_worker (threads : Nat) (output_stride width height input_stride : Nat)
    (i : Nat) : softfilter_thread_data :=
  { out_data := (((y_start threads height i * TWOXSAI_SCALE) % 4294967296 * output_stride : Nat) : Int)
    in_data := ((y_start threads height i * input_stride : Nat) : Int)
    out_pitch := output_stride
    in_pitch := input_stride
    width := width
    height := (y_end threads height i + 4294967296 - y_start threads height i) % 4294967296
    first := y_start threads height i
    last := if y_end threads height i = height then 1 else 0 }

/-- The work list built by `twoxsai_generic_packets`, one entry per worker
`i = 0 .. threads - 1`. -/
def twoxsai_generic_packets (threads : Nat) (output_stride width height input_stride : Nat) :
    List softfilter_thread_data :=
  (List.range threads).map (twoxsai_worker threads output_stride width height input_stride)

/-- The callback `twoxsai_work_cb_rgb565`: the stores of one work packet. -/
def twoxsai_work_cb_rgb565 (mem : Int → Nat) (thr : softfilter_thread_data) :
    List (Int × Nat) :=
  twoxsai_generic_rgb565 mem thr.width thr.height thr.first thr.last
    (thr.in_data / (SOFTFILTER_BPP_RGB565 : Int))
    ((thr.in_pitch / SOFTFILTER_BPP_RGB565) % 4294967296)
    (thr.out_data / (SOFTFILTER_BPP_RGB565 : Int))
    ((thr.out_pitch / SOFTFILTER_BPP_RGB565) % 4294967296)

/-- The loads of one work packet. -/
def twoxsai_work_cb_rgb565_loads (thr : softfilter_thread_data) : List Int :=
  twoxsai_generic_rgb565_loads thr.width thr.height thr.first thr.last
    (thr.in_data / (SOFTFILTER_BPP_RGB565 : Int))
    ((thr.in_pitch / SOFTFILTER_BPP_RGB565) % 4294967296)
    (thr.out_data / (SOFTFILTER_BPP_RGB565 : Int))
    ((thr.out_pitch / SOFTFILTER_BPP_RGB565) % 4294967296)

/-- All stores of one frame: every packet of the work list is executed, in list
order. The filter instance has the RGB565 input format, so every packet carries
the callback `twoxsai_work_cb_rgb565`. -/
def twoxsai_run (mem : Int → Nat) (threads : Nat)
    (output_stride width height input_stride : Nat) : List (Int × Nat) :=
  (twoxsai_generic_packets threads output_stride width height input_stride).flatMap
    (twoxsai_work_cb_rgb565 mem)

/-- All loads of one frame. -/
def twoxsai_run_loads (threads : Nat)
    (output_stride width height input_stride : Nat) : List Int :=
  (twoxsai_generic_packets threads output_stride width height input_stride).flatMap
    twoxsai_work_cb_rgb565_loads

/-- One 16-bit store into the destination frame. -/
def store16 (out : Int → Nat) (w : Int × Nat) : Int → Nat :=
  fun a => if a = w.1 then w.2 else out a

/-- The destination frame after a sequence of stores. -/
def apply_stores (out : Int → Nat) (ws : List (Int × Nat)) : Int → Nat :=
  ws.foldl store16 out

/-- The destination frame after running all work packets on `mem`, starting
from the destination contents `out0`. -/
def twoxsai_output (mem out0 : Int → Nat) (threads : Nat)
    (output_stride width height input_stride : Nat) : Int → Nat :=
  apply_stores out0 (twoxsai_run mem threads output_stride width height input_stride)

/-- A pixel address lies inside the `width` x `height` frame of a buffer with
row stride `stride`: its row is in `[0, height)` and its column in `[0, width)`. -/
def in_frame (width height stride : Nat) (a : Int) : Prop :=
  0 ≤ a ∧ a / (stride : Int) < height ∧ a % (stride : Int) < width

instance (width height stride : Nat) (a : Int) : Decidable (in_frame width height stride a) := by
  unfold in_frame; infer_instance

/-- The four destination cells stored for the source pixel in column `x` of
image row `Y`, in store order: `out`, `out + 1`, `out + dst_stride`,
`out + dst_stride + 1` with `out = 2 * Y * dst_stride + 2 * x`. -/
def cell_addrs (ds Y x : Nat) : List Int :=
  [((2 * Y * ds + 2 * x : Nat) : Int), ((2 * Y * ds + 2 * x : Nat) : Int) + 1,
   ((2 * Y * ds + 2 * x : Nat) : Int) + (ds : Int),
   ((2 * Y * ds + 2 * x : Nat) : Int) + (ds : Int) + 1]

/-- The destination cells of the source rows `s, s + 1, .., s + n - 1`, all
`W` columns each, in store order. -/
def band_addrs (ds W s n : Nat) : List Int :=
  (List.range' s n).flatMap (fun Y => (List.range' 0 W).flatMap (fun x => cell_addrs ds Y x))

/-- A 2x2 test frame with stride 2: row 0 is black, row 1 is white; every other
address holds 0. -/
def frame_2x2 : Int → Nat := fun a => if a = 2 ∨ a = 3 then 0xFFFF else 0

/-- A destination buffer that is initially all zero. -/
def blank : Int → Nat := fun _ => 0

/-! ## Further notions used by the properties -/

/-- The number (1 to 4) of the branch of the if/else chain of the loop body
that a neighbourhood takes. -/
def twoxsai_branch (n : Nbhd Nat) : Nat :=
  if n.colorA = n.colorD ∧ n.colorB ≠ n.colorC then 1
  else if n.colorB = n.colorC ∧ n.colorA ≠ n.colorD then 2
  else if n.colorA = n.colorD ∧ n.colorB = n.colorC then 3
  else 4

/-- The counter `x` as the specification words it: 1 if `A == C`, else 1 if
`B == C`, else 0; then one more if `A == D`. -/
def spec_score_x (A B C D : Nat) : Nat :=
  (if A = C then 1 else if B = C then 1 else 0) + (if A = D then 1 else 0)

/-- The counter `y` as the specification words it: starting at 0, one more if
`A != D` and `B == D`. -/
def spec_score_y (A B _C D : Nat) : Nat :=
  if A = D then 0 else if B = D then 1 else 0

/-- The forward score as the specification words it. -/
def spec_score_forward (A B C D : Nat) : Int :=
  (if spec_score_x A B C D ≤ 1 then 1 else 0) - (if spec_score_y A B C D ≤ 1 then 1 else 0)

/-- The backward score as the specification words it. -/
def spec_score_backward (A B C D : Nat) : Int :=
  (if spec_score_y A B C D ≤ 1 then 1 else 0) - (if spec_score_x A B C D ≤ 1 then 1 else 0)

/-- The number of the samples `C`, `D` that equal `A`. -/
def count_x (A C D : Nat) : Nat :=
  (if A = C then 1 else 0) + (if A = D then 1 else 0)

/-- The number of the samples `C`, `D` that differ from `A` and equal `B`. -/
def count_y (A B C D : Nat) : Nat :=
  (if A ≠ C ∧ B = C then 1 else 0) + (if A ≠ D ∧ B = D then 1 else 0)

/-- The neighbourhood mirrored about the diagonal through I, A and D: B and C,
E and G, F and H, J and M, K and N, L and O change places. -/
def Nbhd.transpose {α : Type} (n : Nbhd α) : Nbhd α :=
  { colorI := n.colorI, colorE := n.colorG, colorF := n.colorH, colorJ := n.colorM
    colorG := n.colorE, colorA := n.colorA, colorB := n.colorC, colorK := n.colorN
    colorH := n.colorF, colorC := n.colorB, colorD := n.colorD, colorL := n.colorO
    colorM := n.colorJ, colorN := n.colorK, colorO := n.colorL }

/-- The stores of a pixel whose block is `A`, `blend2(A, B)` on both rows, with
`A` the pixel at `inp` and `B` its right neighbour. -/
def degenerate_stores (mem : Int → Nat) (dst_stride : Nat) (inp out : Int) :
    List (Int × Nat) :=
  twoxsai_write2_rgb565 out (load16 mem inp)
      (interpolate_rgb565 (load16 mem inp) (load16 mem (inp + 1))) ++
    twoxsai_write2_rgb565 (out + dst_stride) (load16 mem inp)
      (interpolate_rgb565 (load16 mem inp) (load16 mem (inp + 1)))

/-- The smallest of four channel values. -/
def min4 (a b c d : Nat) : Nat := min (min a b) (min c d)

/-- The largest of four channel values. -/
def max4 (a b c d : Nat) : Nat := max (max a b) (max c d)


/-- The neighbourhood of the concrete scenario: `A = 0x0000`, `B = C = D =
0xFFFF`, and every surrounding sample equal to `s`. -/
def scenario_nbhd (s : Nat) : Nbhd Nat :=
  { colorI := s, colorE := s, colorF := s, colorJ := s
    colorG := s, colorA := 0x0000, colorB := 0xFFFF, colorK := s
    colorH := s, colorC := 0xFFFF, colorD := 0xFFFF, colorL := s
    colorM := s, colorN := s, colorO := s }


/-- Every channel of the pixel `p` lies between the smallest and the largest
value of that channel over the pixels `A`, `B`, `C`, `D`. -/
def chan_within (A B C D p : Nat) : Prop :=
  (min4 (chan_lo A) (chan_lo B) (chan_lo C) (chan_lo D) ≤ chan_lo p ∧
    chan_lo p ≤ max4 (chan_lo A) (chan_lo B) (chan_lo C) (chan_lo D)) ∧
  (min4 (chan_mid A) (chan_mid B) (chan_mid C) (chan_mid D) ≤ chan_mid p ∧
    chan_mid p ≤ max4 (chan_mid A) (chan_mid B) (chan_mid C) (chan_mid D)) ∧
  (min4 (chan_hi A) (chan_hi B) (chan_hi C) (chan_hi D) ≤ chan_hi p ∧
    chan_hi p ≤ max4 (chan_hi A) (chan_hi B) (chan_hi C) (chan_hi D))

instance (A B C D p : Nat) : Decidable (chan_within A B C D p) := by
  unfold chan_within; infer_instance


/-- A neighbourhood with four different inner samples and black surroundings. -/
def sample_nbhd : Nbhd Nat :=
  { colorI := 0, colorE := 0, colorF := 0, colorJ := 0
    colorG := 0, colorA := 0x1234, colorB := 0xFFFF, colorK := 0
    colorH := 0, colorC := 0x0000, colorD := 0x8410, colorL := 0
    colorM := 0, colorN := 0, colorO := 0 }


/-! ## Bit-level lemmas for the packed arithmetic -/

/-- Bitwise and acts separately on the part below bit `k` and the part from bit
`k` up. -/
theorem and_split (k lo hi mlo mhi : Nat) (h1 : lo < 2 ^ k) (h2 : mlo < 2 ^ k) :
    (2 ^ k * hi + lo) &&& (2 ^ k * mhi + mlo) = 2 ^ k * (hi &&& mhi) + (lo &&& mlo) := by
  apply Nat.eq_of_testBit_eq
  intro j
  have h3 : lo &&& mlo < 2 ^ k := Nat.and_lt_two_pow _ h2
  rw [Nat.testBit_and, Nat.testBit_mul_pow_two_add _ h1, Nat.testBit_mul_pow_two_add _ h2,
    Nat.testBit_mul_pow_two_add _ h3]
  split <;> simp [Nat.testBit_and]

/-- The mask `0x7e0f81f` keeps bits 0-4, 11-15 and 21-26. -/
theorem mask_eq (x : Nat) :
    x &&& 0x7e0f81f = 2097152 * ((x / 2097152) % 64) + 2048 * ((x / 2048) % 32) + x % 32 := by
  have a1 := and_split 21 (x % 2 ^ 21) (x / 2 ^ 21) 63519 63 (Nat.mod_lt _ (by norm_num))
    (by norm_num)
  have a2 := and_split 11 (x % 2 ^ 21 % 2 ^ 11) (x % 2 ^ 21 / 2 ^ 11) 31 31
    (Nat.mod_lt _ (by norm_num)) (by norm_num)
  have a3 : ∀ y, y &&& 63 = y % 64 := fun y => Nat.and_pow_two_sub_one_eq_mod y 6
  have a4 : ∀ y, y &&& 31 = y % 32 := fun y => Nat.and_pow_two_sub_one_eq_mod y 5
  rw [Nat.div_add_mod] at a1 a2
  rw [a3] at a1
  rw [a4, a4] at a2
  have m1 : (2 ^ 21 * 63 + 63519 : Nat) = 0x7e0f81f := by norm_num
  have m2 : (2 ^ 11 * 31 + 31 : Nat) = 63519 := by norm_num
  rw [m1] at a1
  rw [m2] at a2
  rw [a1, a2]
  omega

/-- Unpacking a 16-bit pixel: `A | (A << 16)` is `A` in both halves of the word. -/
theorem unpack_eq (A : Nat) (hA : A < 65536) :
    A ||| ((A <<< 16) % 4294967296) = 65537 * A := by
  have h : (A <<< 16) % 4294967296 = 2 ^ 16 * A := by
    rw [Nat.shiftLeft_eq]; omega
  rw [h, Nat.lor_comm, ← Nat.mul_add_lt_is_or (by omega) A]
  omega

/-- Bitwise or acts separately on the part below bit `k` and the part from bit
`k` up. -/
theorem or_split (k lo hi mlo mhi : Nat) (h1 : lo < 2 ^ k) (h2 : mlo < 2 ^ k) :
    (2 ^ k * hi + lo) ||| (2 ^ k * mhi + mlo) = 2 ^ k * (hi ||| mhi) + (lo ||| mlo) := by
  apply Nat.eq_of_testBit_eq
  intro j
  have h3 : lo ||| mlo < 2 ^ k := Nat.or_lt_two_pow h1 h2
  rw [Nat.testBit_or, Nat.testBit_mul_pow_two_add _ h1, Nat.testBit_mul_pow_two_add _ h2,
    Nat.testBit_mul_pow_two_add _ h3]
  split <;> simp [Nat.testBit_or]

/-- Repacking: folding the upper half of a masked word onto the lower half puts
the three fields back into the 5/6/5 layout. -/
theorem repack_eq (g r b : Nat) (hg : g < 64) (hr : r < 32) (hb : b < 32) :
    ((2097152 * g + 2048 * r + b) ||| ((2097152 * g + 2048 * r + b) >>> 16)) % 65536
      = 2048 * r + 32 * g + b := by
  have e1 : (2097152 * g + 2048 * r + b) >>> 16 = 32 * g := by
    rw [Nat.shiftRight_eq_div_pow]; omega
  have o1 := or_split 16 (2048 * r + b) (32 * g) (32 * g) 0 (by omega) (by omega)
  have o2 := or_split 11 b r (32 * g) 0 (by omega) (by omega)
  have o3 : b ||| 32 * g = 32 * g + b := by
    rw [Nat.lor_comm]; exact (Nat.mul_add_lt_is_or (show b < 2 ^ 5 by omega) g).symm
  have e2 : 2097152 * g + 2048 * r + b = 2 ^ 16 * (32 * g) + (2048 * r + b) := by omega
  have e3 : 32 * g = 2 ^ 16 * 0 + 32 * g := by omega
  rw [e1]
  conv_lhs => rw [e2]; arg 1; arg 2; rw [e3]
  rw [o1]
  have e4 : (2048 * r + b) ||| 32 * g = 2048 * r + 32 * g + b := by
    have := o2
    simp only [Nat.mul_zero, Nat.zero_add, Nat.or_zero] at this
    have e5 : 2048 * r + b = 2 ^ 11 * r + b := by omega
    rw [e5, this, o3]; omega
  rw [e4]
  simp only [Nat.or_zero]
  omega

/-- Every 16-bit pixel is assembled from its three channels. -/
theorem chan_split (A : Nat) (hA : A < 65536) :
    ∃ r g b, r < 32 ∧ g < 64 ∧ b < 32 ∧ A = 2048 * r + 32 * g + b :=
  ⟨A / 2048, A / 32 % 64, A % 32, by omega, by omega, by omega, by omega⟩

/-- The unpacked and masked word of a pixel, in terms of its channels. -/
theorem unpack_chan (r g b : Nat) (hr : r < 32) (hg : g < 64) (hb : b < 32) :
    ((2048 * r + 32 * g + b) ||| (((2048 * r + 32 * g + b) <<< 16) % 4294967296)) &&& 0x7e0f81f
      = 2097152 * g + 2048 * r + b := by
  rw [unpack_eq _ (by omega), mask_eq]
  have q1 : 65537 * (2048 * r + 32 * g + b) / 2097152 = 64 * r + g := by omega
  have q2 : 65537 * (2048 * r + 32 * g + b) / 2048 = 65537 * r + 1024 * g + 32 * b := by omega
  have e1 : 65537 * (2048 * r + 32 * g + b) / 2097152 % 64 = g := by rw [q1]; omega
  have e2 : 65537 * (2048 * r + 32 * g + b) / 2048 % 32 = r := by rw [q2]; omega
  have e3 : 65537 * (2048 * r + 32 * g + b) % 32 = b := by omega
  rw [e1, e2, e3]

/-- The 2-way blend in terms of channels: each channel is averaged on its own. -/
theorem interpolate_rgb565_chan (r g b r2 g2 b2 : Nat) (hr : r < 32) (hg : g < 64) (hb : b < 32)
    (hr2 : r2 < 32) (hg2 : g2 < 64) (hb2 : b2 < 32) :
    interpolate_rgb565 (2048 * r + 32 * g + b) (2048 * r2 + 32 * g2 + b2)
      = 2048 * ((r + r2) / 2) + 32 * ((g + g2) / 2) + (b + b2) / 2 := by
  unfold interpolate_rgb565
  simp only [unpack_chan _ _ _ hr hg hb, unpack_chan _ _ _ hr2 hg2 hb2,
    Nat.shiftRight_eq_div_pow, mask_eq]
  have s1 : (2097152 * g + 2048 * r + b + (2097152 * g2 + 2048 * r2 + b2)) % 4294967296 / 2 ^ 1
      = 1048576 * (g + g2) + 1024 * (r + r2) + (b + b2) / 2 := by omega
  rw [s1]
  have d1 : (1048576 * (g + g2) + 1024 * (r + r2) + (b + b2) / 2) / 2097152
      = (g + g2) / 2 := by omega
  have d2 : (1048576 * (g + g2) + 1024 * (r + r2) + (b + b2) / 2) / 2048
      = 512 * (g + g2) + (r + r2) / 2 := by omega
  have c1 : (1048576 * (g + g2) + 1024 * (r + r2) + (b + b2) / 2) / 2097152 % 64
      = (g + g2) / 2 := by rw [d1]; omega
  have c2 : (1048576 * (g + g2) + 1024 * (r + r2) + (b + b2) / 2) / 2048 % 32
      = (r + r2) / 2 := by rw [d2]; omega
  have c3 : (1048576 * (g + g2) + 1024 * (r + r2) + (b + b2) / 2) % 32
      = (b + b2) / 2 := by omega
  rw [c1, c2, c3]
  have key := repack_eq ((g + g2) / 2) ((r + r2) / 2) ((b + b2) / 2)
    (by omega) (by omega) (by omega)
  rw [Nat.shiftRight_eq_div_pow] at key
  exact key

/-! ## Rule engine -/

/-- C2: for every neighbourhood the block computed by the loop body of
`twoxsai_generic_rgb565` equals the block of the specification's four-case
decision procedure, taken over the colour-math primitives of the source. -/
theorem C2_rule_engine_conformance (n : Nbhd Nat) :
    twoxsai_block n =
      spec_block interpolate_rgb565 interpolate2_rgb565 result1_rgb565 result2_rgb565 n := by
  unfold twoxsai_block spec_block
  by_cases h1 : n.colorA = n.colorD ∧ n.colorB ≠ n.colorC
  · simp only [twoxsai_products, spec_case, if_pos h1, spec_rules]
  · by_cases h2 : n.colorB = n.colorC ∧ n.colorA ≠ n.colorD
    · simp only [twoxsai_products, spec_case, if_neg h1, if_pos h2, spec_rules]
    · by_cases h3 : n.colorA = n.colorD ∧ n.colorB = n.colorC
      · by_cases h4 : n.colorA = n.colorB
        · simp only [twoxsai_products, spec_case, if_neg h1, if_neg h2, if_pos h3, if_pos h4,
            spec_rules]
        · simp only [twoxsai_products, spec_case, if_neg h1, if_neg h2, if_pos h3, if_neg h4,
            spec_rules, zero_add]
      · simp only [twoxsai_products, spec_case, if_neg h1, if_neg h2, if_neg h3, spec_rules]

/-! ## Colour math: the 2-way blend -/

/-- The three channels of a pixel assembled from a channel triple. -/
theorem chan_of_triple (r g b : Nat) (hr : r < 32) (hg : g < 64) (hb : b < 32) :
    chan_lo (2048 * r + 32 * g + b) = b ∧ chan_mid (2048 * r + 32 * g + b) = g ∧
    chan_hi (2048 * r + 32 * g + b) = r := by
  unfold chan_lo chan_mid chan_hi
  refine ⟨?_, ?_, ?_⟩ <;> omega

/-- C10: for 16-bit pixels every channel of `interpolate_rgb565 A B` is the
truncating average of the two input channels; it therefore lies between them
and the result is again a 16-bit pixel with no carry between bit fields. -/
theorem C10_blend2_channel_average (A B : Nat) (hA : A < 65536) (hB : B < 65536) :
    chan_lo (interpolate_rgb565 A B) = (chan_lo A + chan_lo B) / 2 ∧
    chan_mid (interpolate_rgb565 A B) = (chan_mid A + chan_mid B) / 2 ∧
    chan_hi (interpolate_rgb565 A B) = (chan_hi A + chan_hi B) / 2 ∧
    (min (chan_lo A) (chan_lo B) ≤ chan_lo (interpolate_rgb565 A B) ∧
      chan_lo (interpolate_rgb565 A B) ≤ max (chan_lo A) (chan_lo B)) ∧
    (min (chan_mid A) (chan_mid B) ≤ chan_mid (interpolate_rgb565 A B) ∧
      chan_mid (interpolate_rgb565 A B) ≤ max (chan_mid A) (chan_mid B)) ∧
    (min (chan_hi A) (chan_hi B) ≤ chan_hi (interpolate_rgb565 A B) ∧
      chan_hi (interpolate_rgb565 A B) ≤ max (chan_hi A) (chan_hi B)) ∧
    interpolate_rgb565 A B < 65536 := by
  obtain ⟨r, g, b, hr, hg, hb, rfl⟩ := chan_split A hA
  obtain ⟨r2, g2, b2, hr2, hg2, hb2, rfl⟩ := chan_split B hB
  rw [interpolate_rgb565_chan r g b r2 g2 b2 hr hg hb hr2 hg2 hb2]
  obtain ⟨a1, a2, a3⟩ := chan_of_triple r g b hr hg hb
  obtain ⟨a4, a5, a6⟩ := chan_of_triple r2 g2 b2 hr2 hg2 hb2
  obtain ⟨c1, c2, c3⟩ := chan_of_triple ((r + r2) / 2) ((g + g2) / 2) ((b + b2) / 2)
    (by omega) (by omega) (by omega)
  rw [a1, a2, a3, a4, a5, a6, c1, c2, c3]
  clear a1 a2 a3 a4 a5 a6 c1 c2 c3 hA hB
  refine ⟨rfl, rfl, rfl, ⟨?_, ?_⟩, ⟨?_, ?_⟩, ⟨?_, ?_⟩, ?_⟩ <;> omega

/-- C10 at the pixels 0x1234 and 0xFFFF. -/
theorem C10_blend2_channel_average_witness :
    chan_lo (interpolate_rgb565 0x1234 0xFFFF) = (chan_lo 0x1234 + chan_lo 0xFFFF) / 2 ∧
    chan_mid (interpolate_rgb565 0x1234 0xFFFF) = (chan_mid 0x1234 + chan_mid 0xFFFF) / 2 ∧
    chan_hi (interpolate_rgb565 0x1234 0xFFFF) = (chan_hi 0x1234 + chan_hi 0xFFFF) / 2 ∧
    (min (chan_lo 0x1234) (chan_lo 0xFFFF) ≤ chan_lo (interpolate_rgb565 0x1234 0xFFFF) ∧
      chan_lo (interpolate_rgb565 0x1234 0xFFFF) ≤ max (chan_lo 0x1234) (chan_lo 0xFFFF)) ∧
    (min (chan_mid 0x1234) (chan_mid 0xFFFF) ≤ chan_mid (interpolate_rgb565 0x1234 0xFFFF) ∧
      chan_mid (interpolate_rgb565 0x1234 0xFFFF) ≤ max (chan_mid 0x1234) (chan_mid 0xFFFF)) ∧
    (min (chan_hi 0x1234) (chan_hi 0xFFFF) ≤ chan_hi (interpolate_rgb565 0x1234 0xFFFF) ∧
      chan_hi (interpolate_rgb565 0x1234 0xFFFF) ≤ max (chan_hi 0x1234) (chan_hi 0xFFFF)) ∧
    interpolate_rgb565 0x1234 0xFFFF < 65536 :=
  C10_blend2_channel_average 0x1234 0xFFFF (by decide) (by decide)

/-! ## Tile scheduler: the partition -/

/-- The product `height * i` does not wrap for `i` up to the worker count. -/
theorem mul_mod_u32 (H N i : Nat) (hHN : H * N < 4294967296) (hi : i ≤ N) :
    (H * i) % 4294967296 = H * i :=
  Nat.mod_eq_of_lt (Nat.lt_of_le_of_lt (Nat.mul_le_mul_left H hi) hHN)

/-- Without wrap-around the start row is `H * i / N`. -/
theorem y_start_eq (H N i : Nat) (hHN : H * N < 4294967296) (hi : i ≤ N) :
    y_start N H i = H * i / N := by
  unfold y_start; rw [mul_mod_u32 H N i hHN hi]

/-- The end row of a slice is the start row of the next one. -/
theorem y_end_eq_y_start (H N i : Nat) : y_end N H i = y_start N H (i + 1) := rfl

/-- The first slice starts at row 0. -/
theorem y_start_zero (H N : Nat) : y_start N H 0 = 0 := by
  simp [y_start]

/-- The bound after the last slice is the image height. -/
theorem y_start_last (H N : Nat) (hN : 0 < N) (hHN : H * N < 4294967296) :
    y_start N H N = H := by
  rw [y_start_eq H N N hHN (Nat.le_refl N)]
  exact Nat.mul_div_cancel H hN

/-- Slice bounds are ordered. -/
theorem y_start_mono (H N i j : Nat) (hHN : H * N < 4294967296) (hij : i ≤ j) (hj : j ≤ N) :
    y_start N H i ≤ y_start N H j := by
  rw [y_start_eq H N i hHN (Nat.le_trans hij hj), y_start_eq H N j hHN hj]
  exact Nat.div_le_div_right (Nat.mul_le_mul_left H hij)

/-- Slice bounds do not exceed the image height. -/
theorem y_start_le (H N i : Nat) (hN : 0 < N) (hHN : H * N < 4294967296) (hi : i ≤ N) :
    y_start N H i ≤ H := by
  have h := y_start_mono H N i N hHN hi (Nat.le_refl N)
  rwa [y_start_last H N hN hHN] at h

/-- The height stored for worker `i` is the difference of its two bounds. -/
theorem worker_height (H N i os W is : Nat) (hN : 0 < N) (hHN : H * N < 4294967296)
    (hi : i < N) :
    (twoxsai_worker N os W H is i).height = y_end N H i - y_start N H i := by
  have h1 : y_start N H i ≤ y_end N H i := y_start_mono H N i (i + 1) hHN (Nat.le_succ i) hi
  have h2 : y_end N H i ≤ H := y_start_le H N (i + 1) hN hHN hi
  have h3 : H < 4294967296 := by
    have : H * 1 ≤ H * N := Nat.mul_le_mul_left H hN
    omega
  show (y_end N H i + 4294967296 - y_start N H i) % 4294967296 = _
  omega

/-- Every row below `H` lies in the slice of some worker. -/
theorem slice_exists (H N r : Nat) (hN : 0 < N) (hHN : H * N < 4294967296) (hr : r < H) :
    ∃ i, i < N ∧ y_start N H i ≤ r ∧ r < y_end N H i := by
  have hex : ∃ k, r < y_start N H (k + 1) :=
    ⟨N - 1, by rw [Nat.sub_add_cancel hN, y_start_last H N hN hHN]; exact hr⟩
  refine ⟨Nat.find hex, ?_, ?_, Nat.find_spec hex⟩
  · have : Nat.find hex ≤ N - 1 :=
      Nat.find_min' hex (by rw [Nat.sub_add_cancel hN, y_start_last H N hN hHN]; exact hr)
    omega
  · by_cases h0 : Nat.find hex = 0
    · rw [h0, y_start_zero]; exact Nat.zero_le r
    · obtain ⟨k, hk⟩ := Nat.exists_eq_succ_of_ne_zero h0
      have hmin := Nat.find_min hex (show k < Nat.find hex by omega)
      rw [hk]
      exact Nat.le_of_not_lt hmin

/-- Two slices that share a row are the same slice. -/
theorem slice_unique (H N r i j : Nat) (hHN : H * N < 4294967296)
    (hi : i < N) (hj : j < N)
    (hi1 : y_start N H i ≤ r) (hi2 : r < y_end N H i)
    (hj1 : y_start N H j ≤ r) (hj2 : r < y_end N H j) : i = j := by
  rcases Nat.lt_trichotomy i j with h | h | h
  · have := y_start_mono H N (i + 1) j hHN h (Nat.le_of_lt hj)
    rw [y_end_eq_y_start] at hi2
    omega
  · exact h
  · have := y_start_mono H N (j + 1) i hHN h (Nat.le_of_lt hi)
    rw [y_end_eq_y_start] at hj2
    omega

/-- C3: with `H * N` inside 32 bits, the ranges `[y_start i, y_end i)` of
`twoxsai_generic_packets` start at 0, end at `H`, are ordered and abut, so
every row below `H` lies in exactly one slice, and the stored slice height is
`y_end i - y_start i`. -/
theorem C3_tile_partition (H N os W is : Nat) (hN : 0 < N) (hHN : H * N < 4294967296) :
    y_start N H 0 = 0 ∧ y_end N H (N - 1) = H ∧
    (∀ i, i < N →
      y_start N H i = H * i / N ∧ y_end N H i = H * (i + 1) / N ∧
      y_start N H i ≤ y_end N H i ∧
      (twoxsai_worker N os W H is i).height = y_end N H i - y_start N H i) ∧
    (∀ i, i + 1 < N → y_end N H i = y_start N H (i + 1)) ∧
    (∀ r, r < H → ∃! i, i < N ∧ y_start N H i ≤ r ∧ r < y_end N H i) := by
  refine ⟨y_start_zero H N, ?_, ?_, fun i _ => rfl, ?_⟩
  · rw [y_end_eq_y_start, Nat.sub_add_cancel hN]
    exact y_start_last H N hN hHN
  · intro i hi
    refine ⟨y_start_eq H N i hHN (Nat.le_of_lt hi), ?_, ?_, worker_height H N i os W is hN hHN hi⟩
    · rw [y_end_eq_y_start]; exact y_start_eq H N (i + 1) hHN hi
    · exact y_start_mono H N i (i + 1) hHN (Nat.le_succ i) hi
  · intro r hr
    obtain ⟨i, hi, h1, h2⟩ := slice_exists H N r hN hHN hr
    refine ⟨i, ⟨hi, h1, h2⟩, ?_⟩
    rintro j ⟨hj, hj1, hj2⟩
    exact slice_unique H N r j i hHN hj hi hj1 hj2 h1 h2

/-- C3 for five rows and three workers. -/
theorem C3_tile_partition_witness :
    y_start 3 5 0 = 0 ∧ y_end 3 5 (3 - 1) = 5 ∧
    (∀ i, i < 3 →
      y_start 3 5 i = 5 * i / 3 ∧ y_end 3 5 i = 5 * (i + 1) / 3 ∧
      y_start 3 5 i ≤ y_end 3 5 i ∧
      (twoxsai_worker 3 8 2 5 4 i).height = y_end 3 5 i - y_start 3 5 i) ∧
    (∀ i, i + 1 < 3 → y_end 3 5 i = y_start 3 5 (i + 1)) ∧
    (∀ r, r < 5 → ∃! i, i < 3 ∧ y_start 3 5 i ≤ r ∧ r < y_end 3 5 i) :=
  C3_tile_partition 5 3 8 2 4 (by decide) (by decide)

/-- C9: two rows split over two workers. Worker 0 starts at row 0 and its
`first` field is 0 (false); worker 1 starts at row 1 and its `first` field is 1
(true). The `last` field is set exactly on the worker whose slice ends at the
image height. -/
theorem C9_first_flag_two_workers :
    (y_start 2 2 0 = 0 ∧ (twoxsai_worker 2 8 2 2 4 0).first = 0) ∧
    (y_start 2 2 1 ≠ 0 ∧ (twoxsai_worker 2 8 2 2 4 1).first ≠ 0) ∧
    (y_end 2 2 0 ≠ 2 ∧ (twoxsai_worker 2 8 2 2 4 0).last = 0) ∧
    (y_end 2 2 1 = 2 ∧ (twoxsai_worker 2 8 2 2 4 1).last ≠ 0) := by
  decide

/-! ## The loops as iterations over rows and columns -/

/-- The inner loop started at column `c` visits the columns `c, c + 1, ..` in
turn. -/
theorem twoxsai_row_trace {β : Type} (body : Int → Int → List β) (w c a o : Nat) :
    twoxsai_row body w ((a + c : Nat) : Int) ((o + 2 * c : Nat) : Int) =
      (List.range' c w).flatMap
        (fun x => body ((a + x : Nat) : Int) ((o + 2 * x : Nat) : Int)) := by
  induction w generalizing c with
  | zero => simp [twoxsai_row]
  | succ w ih =>
    have h1 : ((a + c : Nat) : Int) + 1 = ((a + (c + 1) : Nat) : Int) := by push_cast; ring
    have h2 : ((o + 2 * c : Nat) : Int) + 2 = ((o + 2 * (c + 1) : Nat) : Int) := by
      push_cast; ring
    simp only [twoxsai_row, List.range'_succ, List.flatMap_cons]
    rw [h1, h2, ih]

/-- The outer loop started at image row `s` visits the rows `s, s + 1, ..` and
every column of each. -/
theorem twoxsai_rows_trace {β : Type} (body : Int → Int → List β) (W ss ds : Nat)
    (hds : 2 * ds < 4294967296) (h s : Nat) :
    twoxsai_rows body W ss ds h ((s * ss : Nat) : Int) ((2 * s * ds : Nat) : Int) =
      (List.range' s h).flatMap (fun Y => (List.range' 0 W).flatMap
        (fun x => body ((Y * ss + x : Nat) : Int) ((2 * Y * ds + 2 * x : Nat) : Int))) := by
  induction h generalizing s with
  | zero => simp [twoxsai_rows]
  | succ h ih =>
    have h1 : ((s * ss : Nat) : Int) + (ss : Int) = (((s + 1) * ss : Nat) : Int) := by
      push_cast; ring
    have h2 : ((2 * s * ds : Nat) : Int) + (((2 * ds) % 4294967296 : Nat) : Int)
        = ((2 * (s + 1) * ds : Nat) : Int) := by
      rw [Nat.mod_eq_of_lt hds]; push_cast; ring
    have h3 := twoxsai_row_trace body W 0 (s * ss) (2 * s * ds)
    simp only [Nat.mul_zero, Nat.add_zero] at h3
    simp only [twoxsai_rows, List.range'_succ, List.flatMap_cons]
    rw [h1, h2, ih, h3]

/-- The source pointer handed to worker code: the byte offset of the slice
start divided by the pixel size. -/
theorem worker_src (ys ss : Nat) :
    ((ys * (2 * ss) : Nat) : Int) / ((2 : Nat) : Int) = ((ys * ss : Nat) : Int) := by
  rw [← Int.natCast_div, Nat.mul_left_comm, Nat.mul_div_cancel_left _ (by decide : 0 < 2)]

/-- The destination pointer handed to worker code. -/
theorem worker_dst (ys ds : Nat) (hys : 2 * ys < 4294967296) :
    (((ys * 2) % 4294967296 * (2 * ds) : Nat) : Int) / ((2 : Nat) : Int)
      = ((2 * ys * ds : Nat) : Int) := by
  rw [← Int.natCast_div, Nat.mod_eq_of_lt (by omega)]
  congr 1
  have : ys * 2 * (2 * ds) = 2 * (2 * ys * ds) := by ring
  rw [this, Nat.mul_div_cancel_left _ (by decide : 0 < 2)]

/-- Twice the start row of a slice fits in 32 bits. -/
theorem two_y_start_lt (H N i : Nat) (hN : 0 < N) (hHN : H * N < 4294967296) (hi : i < N) :
    2 * y_start N H i < 4294967296 := by
  by_cases h0 : i = 0
  · rw [h0, y_start_zero]; decide
  · have h1 := y_start_le H N i hN hHN (Nat.le_of_lt hi)
    have h2 : H * 2 ≤ H * N := Nat.mul_le_mul_left H (by omega)
    omega

/-- The source stride handed to worker code is the pixel stride. -/
theorem worker_in_stride (N W H ss ds i : Nat) (hss : ss < 4294967296) :
    (twoxsai_worker N (2 * ds) W H (2 * ss) i).in_pitch / SOFTFILTER_BPP_RGB565 % 4294967296
      = ss := by
  simp only [twoxsai_worker, SOFTFILTER_BPP_RGB565]
  omega

/-- The destination stride handed to worker code is the pixel stride. -/
theorem worker_out_stride (N W H ss ds i : Nat) (hds : 2 * ds < 4294967296) :
    (twoxsai_worker N (2 * ds) W H (2 * ss) i).out_pitch / SOFTFILTER_BPP_RGB565 % 4294967296
      = ds := by
  simp only [twoxsai_worker, SOFTFILTER_BPP_RGB565]
  omega

/-- What one iteration of the work loop emits for worker `i`: the body is run
for the image rows of the slice and all columns. -/
theorem generic_trace {β : Type} (body : Int → Int → List β) (N W H ss ds i : Nat)
    (hN : 0 < N) (hHN : H * N < 4294967296) (hi : i < N) (hds : 2 * ds < 4294967296) :
    twoxsai_rows body (twoxsai_worker N (2 * ds) W H (2 * ss) i).width ss ds
        (twoxsai_worker N (2 * ds) W H (2 * ss) i).height
        ((twoxsai_worker N (2 * ds) W H (2 * ss) i).in_data / (SOFTFILTER_BPP_RGB565 : Int))
        ((twoxsai_worker N (2 * ds) W H (2 * ss) i).out_data / (SOFTFILTER_BPP_RGB565 : Int))
      = (List.range' (y_start N H i) (y_end N H i - y_start N H i)).flatMap
          (fun Y => (List.range' 0 W).flatMap
            (fun x => body ((Y * ss + x : Nat) : Int) ((2 * Y * ds + 2 * x : Nat) : Int))) := by
  rw [worker_height H N i (2 * ds) W (2 * ss) hN hHN hi]
  simp only [twoxsai_worker, SOFTFILTER_BPP_RGB565, TWOXSAI_SCALE]
  rw [worker_src, worker_dst _ _ (two_y_start_lt H N i hN hHN hi)]
  exact twoxsai_rows_trace body W ss ds hds _ _

/-- The stores of worker `i`, row by row and column by column. -/
theorem work_cb_trace (mem : Int → Nat) (N W H ss ds i : Nat)
    (hN : 0 < N) (hHN : H * N < 4294967296) (hi : i < N)
    (hss : ss < 4294967296) (hds : 2 * ds < 4294967296) :
    twoxsai_work_cb_rgb565 mem (twoxsai_worker N (2 * ds) W H (2 * ss) i)
      = (List.range' (y_start N H i) (y_end N H i - y_start N H i)).flatMap
          (fun Y => (List.range' 0 W).flatMap
            (fun x => twoxsai_pixel_stores mem
              (twoxsai_nextline (twoxsai_worker N (2 * ds) W H (2 * ss) i).last ss) ds
              ((Y * ss + x : Nat) : Int) ((2 * Y * ds + 2 * x : Nat) : Int))) := by
  simp only [twoxsai_work_cb_rgb565, twoxsai_generic_rgb565]
  rw [worker_in_stride N W H ss ds i hss, worker_out_stride N W H ss ds i hds]
  exact generic_trace _ N W H ss ds i hN hHN hi hds

/-- The loads of worker `i`, row by row and column by column. -/
theorem work_cb_loads_trace (N W H ss ds i : Nat)
    (hN : 0 < N) (hHN : H * N < 4294967296) (hi : i < N)
    (hss : ss < 4294967296) (hds : 2 * ds < 4294967296) :
    twoxsai_work_cb_rgb565_loads (twoxsai_worker N (2 * ds) W H (2 * ss) i)
      = (List.range' (y_start N H i) (y_end N H i - y_start N H i)).flatMap
          (fun Y => (List.range' 0 W).flatMap
            (fun x => twoxsai_pixel_loads
              (twoxsai_nextline (twoxsai_worker N (2 * ds) W H (2 * ss) i).last ss)
              ((Y * ss + x : Nat) : Int) ((2 * Y * ds + 2 * x : Nat) : Int))) := by
  simp only [twoxsai_work_cb_rgb565_loads, twoxsai_generic_rgb565_loads]
  rw [worker_in_stride N W H ss ds i hss, worker_out_stride N W H ss ds i hds]
  exact generic_trace _ N W H ss ds i hN hHN hi hds

/-! ## Destination cells -/

/-- Consecutive bands of rows concatenate. -/
theorem band_addrs_append (ds W s m n : Nat) :
    band_addrs ds W s m ++ band_addrs ds W (s + m) n = band_addrs ds W s (m + n) := by
  unfold band_addrs
  rw [← List.flatMap_append, List.range'_append_1, Nat.add_comm n m]

/-- A cell of the four stored for pixel `(x, Y)`: row `2Y` or `2Y + 1`, column
`2x` or `2x + 1`. -/
theorem mem_cell_addrs (ds Y x : Nat) (a : Int) :
    a ∈ cell_addrs ds Y x ↔
      ∃ dr dc : Nat, dr < 2 ∧ dc < 2 ∧ a = (((2 * Y + dr) * ds + (2 * x + dc) : Nat) : Int) := by
  simp only [cell_addrs, List.mem_cons, List.mem_singleton, List.not_mem_nil, or_false]
  constructor
  · rintro (h | h | h | h)
    · exact ⟨0, 0, by decide, by decide, by rw [h]; push_cast; ring⟩
    · exact ⟨0, 1, by decide, by decide, by rw [h]; push_cast; ring⟩
    · exact ⟨1, 0, by decide, by decide, by rw [h]; push_cast; ring⟩
    · exact ⟨1, 1, by decide, by decide, by rw [h]; push_cast; ring⟩
  · rintro ⟨dr, dc, hdr, hdc, h⟩
    have hr : dr = 0 ∨ dr = 1 := by omega
    have hc : dc = 0 ∨ dc = 1 := by omega
    rcases hr with rfl | rfl <;> rcases hc with rfl | rfl
    · left; rw [h]; push_cast; ring
    · right; left; rw [h]; push_cast; ring
    · right; right; left; rw [h]; push_cast; ring
    · right; right; right; rw [h]; push_cast; ring

/-- A row and column pair is determined by its cell address when the columns
stay below the stride. -/
theorem cell_inj (ds r c r2 c2 : Nat) (hc : c < ds) (hc2 : c2 < ds)
    (h : r * ds + c = r2 * ds + c2) : r = r2 ∧ c = c2 := by
  have hr : r = r2 := by
    rcases Nat.lt_trichotomy r r2 with hlt | heq | hgt
    · have : (r + 1) * ds ≤ r2 * ds := Nat.mul_le_mul_right ds hlt
      rw [Nat.add_mul, Nat.one_mul] at this
      omega
    · exact heq
    · have : (r2 + 1) * ds ≤ r * ds := Nat.mul_le_mul_right ds hgt
      rw [Nat.add_mul, Nat.one_mul] at this
      omega
  subst hr
  exact ⟨rfl, by omega⟩

/-- The cells of a band of rows are exactly rows `2s .. 2(s+n) - 1`, columns
`0 .. 2W - 1`. -/
theorem mem_band_addrs (ds W s n : Nat) (a : Int) :
    a ∈ band_addrs ds W s n ↔
      ∃ r c : Nat, 2 * s ≤ r ∧ r < 2 * (s + n) ∧ c < 2 * W ∧ a = ((r * ds + c : Nat) : Int) := by
  simp only [band_addrs, List.mem_flatMap, List.mem_range'_1, mem_cell_addrs]
  constructor
  · rintro ⟨Y, ⟨hY1, hY2⟩, x, ⟨_, hx⟩, dr, dc, hdr, hdc, h⟩
    exact ⟨2 * Y + dr, 2 * x + dc, by omega, by omega, by omega, h⟩
  · rintro ⟨r, c, hr1, hr2, hc, h⟩
    refine ⟨r / 2, ⟨by omega, by omega⟩, c / 2, ⟨by omega, by omega⟩, r % 2, c % 2,
      Nat.mod_lt _ (by decide), Nat.mod_lt _ (by decide), ?_⟩
    rw [h, Nat.div_add_mod, Nat.div_add_mod]

/-- Cells of different pixels are different. -/
theorem cell_addrs_disjoint (ds W Y x Y2 x2 : Nat) (hds : 2 * W ≤ ds)
    (hx : x < W) (hx2 : x2 < W) (hne : Y ≠ Y2 ∨ x ≠ x2) :
    List.Disjoint (cell_addrs ds Y x) (cell_addrs ds Y2 x2) := by
  rw [List.disjoint_left]
  intro a h1 h2
  rw [mem_cell_addrs] at h1 h2
  obtain ⟨dr, dc, hdr, hdc, e1⟩ := h1
  obtain ⟨dr2, dc2, hdr2, hdc2, e2⟩ := h2
  have e : (2 * Y + dr) * ds + (2 * x + dc) = (2 * Y2 + dr2) * ds + (2 * x2 + dc2) := by
    exact_mod_cast e1.symm.trans e2
  obtain ⟨h3, h4⟩ := cell_inj ds _ _ _ _ (by omega) (by omega) e
  omega

/-- The four cells of one pixel are different. -/
theorem cell_addrs_nodup (ds Y x : Nat) (hds : 2 ≤ ds) : (cell_addrs ds Y x).Nodup := by
  simp only [cell_addrs, List.nodup_cons, List.mem_cons, List.mem_singleton, List.not_mem_nil,
    List.nodup_nil, not_or, not_false_eq_true, and_true]
  refine ⟨⟨?_, ?_, ?_⟩, ⟨?_, ?_⟩, ?_⟩ <;> omega

/-- No cell of a band of rows is stored twice. -/
theorem band_addrs_nodup (ds W s n : Nat) (hds : 2 * W ≤ ds) : (band_addrs ds W s n).Nodup := by
  unfold band_addrs
  rw [List.nodup_flatMap]
  constructor
  · intro Y _
    rw [List.nodup_flatMap]
    constructor
    · intro x hx
      rw [List.mem_range'_1] at hx
      exact cell_addrs_nodup ds Y x (by omega)
    · refine List.Pairwise.imp_of_mem ?_ (List.pairwise_lt_range' 0 W)
      intro x x2 hx hx2 hlt
      rw [List.mem_range'_1] at hx hx2
      exact cell_addrs_disjoint ds W Y x Y x2 hds (by omega) (by omega) (Or.inr (by omega))
  · refine List.Pairwise.imp ?_ (List.pairwise_lt_range' s n)
    intro Y Y2 hlt
    show List.Disjoint _ _
    rw [List.disjoint_left]
    intro a h1 h2
    rw [List.mem_flatMap] at h1 h2
    obtain ⟨x, hx, h1⟩ := h1
    obtain ⟨x2, hx2, h2⟩ := h2
    rw [List.mem_range'_1] at hx hx2
    exact (List.disjoint_left.mp
      (cell_addrs_disjoint ds W Y x Y2 x2 hds (by omega) (by omega) (Or.inl (by omega)))) h1 h2


/-! ### Destination cells do not depend on the source side -/

/-- Mapping over what the inner loop emits is mapping inside its body. -/
theorem twoxsai_row_map {β γ : Type} (g : β → γ) (body : Int → Int → List β) (w : Nat)
    (inp out : Int) :
    (twoxsai_row body w inp out).map g = twoxsai_row (fun i o => (body i o).map g) w inp out := by
  induction w generalizing inp out with
  | zero => simp [twoxsai_row]
  | succ w ih => simp only [twoxsai_row, List.map_append, ih]

/-- Mapping over what the outer loop emits is mapping inside its body. -/
theorem twoxsai_rows_map {β γ : Type} (g : β → γ) (body : Int → Int → List β)
    (W ss ds h : Nat) (src dst : Int) :
    (twoxsai_rows body W ss ds h src dst).map g
      = twoxsai_rows (fun i o => (body i o).map g) W ss ds h src dst := by
  induction h generalizing src dst with
  | zero => simp [twoxsai_rows]
  | succ h ih => simp only [twoxsai_rows, List.map_append, ih, twoxsai_row_map]

/-- A body that ignores the source pointer makes the inner loop ignore it. -/
theorem twoxsai_row_src_irrel {β : Type} (f : Int → List β) (w : Nat) (inp inp2 out : Int) :
    twoxsai_row (fun _ o => f o) w inp out = twoxsai_row (fun _ o => f o) w inp2 out := by
  induction w generalizing inp inp2 out with
  | zero => simp [twoxsai_row]
  | succ w ih => simp only [twoxsai_row, ih (inp + 1) (inp2 + 1)]

/-- A body that ignores the source pointer makes the outer loop ignore the
source pointer and the source stride. -/
theorem twoxsai_rows_src_irrel {β : Type} (f : Int → List β) (W ss ss2 ds h : Nat)
    (src src2 dst : Int) :
    twoxsai_rows (fun _ o => f o) W ss ds h src dst
      = twoxsai_rows (fun _ o => f o) W ss2 ds h src2 dst := by
  induction h generalizing src src2 dst with
  | zero => simp [twoxsai_rows]
  | succ h ih =>
    simp only [twoxsai_rows, twoxsai_row_src_irrel f W src src2,
      ih (src + ss) (src2 + ss2)]

/-- The cells stored by one iteration of the inner loop, for any pointers. -/
theorem pixel_stores_fst (mem : Int → Nat) (nl ds : Nat) (inp out : Int) :
    (twoxsai_pixel_stores mem nl ds inp out).map Prod.fst
      = [out, out + 1, out + (ds : Int), out + (ds : Int) + 1] := by
  simp [twoxsai_pixel_stores, twoxsai_write2_rgb565]

/-- The cells stored by worker `i` are those of its slice of rows, whatever the
source pitch. -/
theorem work_cb_addrs_any (mem : Int → Nat) (N W H is ds i : Nat)
    (hN : 0 < N) (hHN : H * N < 4294967296) (hi : i < N) (hds : 2 * ds < 4294967296) :
    (twoxsai_work_cb_rgb565 mem (twoxsai_worker N (2 * ds) W H is i)).map Prod.fst
      = band_addrs ds W (y_start N H i) (y_end N H i - y_start N H i) := by
  have e2 : 2 * ds / 2 % 4294967296 = ds := by omega
  simp only [twoxsai_work_cb_rgb565, twoxsai_generic_rgb565, twoxsai_rows_map, pixel_stores_fst]
  rw [worker_height H N i (2 * ds) W is hN hHN hi]
  simp only [twoxsai_worker, SOFTFILTER_BPP_RGB565, TWOXSAI_SCALE, e2]
  rw [worker_dst _ _ (two_y_start_lt H N i hN hHN hi),
    twoxsai_rows_src_irrel (fun o => [o, o + 1, o + (ds : Int), o + (ds : Int) + 1]) W _ 0 ds _ _
      ((y_start N H i * 0 : Nat) : Int),
    twoxsai_rows_trace _ W 0 ds hds _ _]
  rfl

/-- The cells stored by the first `k` workers, whatever the source pitch. -/
theorem packets_addrs_any (mem : Int → Nat) (N W H is ds : Nat)
    (hN : 0 < N) (hHN : H * N < 4294967296) (hds : 2 * ds < 4294967296)
    (k : Nat) (hk : k ≤ N) :
    ((List.range k).map (twoxsai_worker N (2 * ds) W H is)).flatMap
        (fun thr => (twoxsai_work_cb_rgb565 mem thr).map Prod.fst)
      = band_addrs ds W 0 (y_start N H k) := by
  induction k with
  | zero => simp [band_addrs, y_start_zero]
  | succ k ih =>
    have hk1 : k < N := hk
    have hmono : y_start N H k ≤ y_start N H (k + 1) :=
      y_start_mono H N k (k + 1) hHN (Nat.le_succ k) hk
    rw [List.range_succ, List.map_append, List.flatMap_append, ih (Nat.le_of_lt hk1)]
    simp only [List.map_cons, List.map_nil, List.flatMap_cons, List.flatMap_nil,
      List.append_nil]
    rw [work_cb_addrs_any mem N W H is ds k hN hHN hk1 hds, y_end_eq_y_start]
    have h := band_addrs_append ds W 0 (y_start N H k) (y_start N H (k + 1) - y_start N H k)
    rw [Nat.zero_add, Nat.add_sub_cancel' hmono] at h
    exact h

/-- The cells stored by a whole run are those of the rows `0 .. H - 1`. -/
theorem run_addrs_any (mem : Int → Nat) (N W H is ds : Nat)
    (hN : 0 < N) (hHN : H * N < 4294967296) (hds : 2 * ds < 4294967296) :
    (twoxsai_run mem N (2 * ds) W H is).map Prod.fst = band_addrs ds W 0 H := by
  have h := packets_addrs_any mem N W H is ds hN hHN hds N (Nat.le_refl N)
  rw [y_start_last H N hN hHN] at h
  rw [← h, twoxsai_run, twoxsai_generic_packets, List.map_flatMap]

/-- C8: with a destination stride of at least `2 * W` pixels, worker `i` stores
exactly the cells of rows `[2 * y_start i, 2 * y_end i)` and columns `[0, 2W)`;
two workers never store the same cell, the whole run stores no cell twice, and
the cells it stores are exactly those of the `2W` x `2H` output. -/
theorem C8_disjoint_destination_bands (mem : Int → Nat) (N W H is ds : Nat)
    (hN : 0 < N) (hHN : H * N < 4294967296) (hds32 : 2 * ds < 4294967296)
    (hds : 2 * W ≤ ds) :
    (∀ i, i < N → ∀ a : Int,
      a ∈ (twoxsai_work_cb_rgb565 mem (twoxsai_worker N (2 * ds) W H is i)).map Prod.fst ↔
        ∃ r c : Nat, 2 * y_start N H i ≤ r ∧ r < 2 * y_end N H i ∧ c < 2 * W ∧
          a = ((r * ds + c : Nat) : Int)) ∧
    (∀ i j, i < j → j < N →
      List.Disjoint
        ((twoxsai_work_cb_rgb565 mem (twoxsai_worker N (2 * ds) W H is i)).map Prod.fst)
        ((twoxsai_work_cb_rgb565 mem (twoxsai_worker N (2 * ds) W H is j)).map Prod.fst)) ∧
    ((twoxsai_run mem N (2 * ds) W H is).map Prod.fst).Nodup ∧
    (∀ a : Int, a ∈ (twoxsai_run mem N (2 * ds) W H is).map Prod.fst ↔
      ∃ r c : Nat, r < 2 * H ∧ c < 2 * W ∧ a = ((r * ds + c : Nat) : Int)) := by
  have hband : ∀ i, i < N → ∀ a : Int,
      a ∈ (twoxsai_work_cb_rgb565 mem (twoxsai_worker N (2 * ds) W H is i)).map Prod.fst ↔
        ∃ r c : Nat, 2 * y_start N H i ≤ r ∧ r < 2 * y_end N H i ∧ c < 2 * W ∧
          a = ((r * ds + c : Nat) : Int) := by
    intro i hi a
    have hmono : y_start N H i ≤ y_end N H i :=
      y_start_mono H N i (i + 1) hHN (Nat.le_succ i) hi
    rw [work_cb_addrs_any mem N W H is ds i hN hHN hi hds32, mem_band_addrs,
      Nat.add_sub_cancel' hmono]
  refine ⟨hband, ?_, ?_, ?_⟩
  · intro i j hij hj
    rw [List.disjoint_left]
    intro a h1 h2
    rw [hband i (Nat.lt_trans hij hj)] at h1
    rw [hband j hj] at h2
    obtain ⟨r, c, _, hr, hc, e1⟩ := h1
    obtain ⟨r2, c2, hr2, _, hc2, e2⟩ := h2
    have e : r * ds + c = r2 * ds + c2 := by exact_mod_cast e1.symm.trans e2
    obtain ⟨h3, _⟩ := cell_inj ds r c r2 c2 (by omega) (by omega) e
    have := y_start_mono H N (i + 1) j hHN hij (Nat.le_of_lt hj)
    rw [y_end_eq_y_start] at hr
    omega
  · rw [run_addrs_any mem N W H is ds hN hHN hds32]
    exact band_addrs_nodup ds W 0 H hds
  · intro a
    rw [run_addrs_any mem N W H is ds hN hHN hds32, mem_band_addrs]
    simp only [Nat.mul_zero, Nat.zero_le, true_and, Nat.zero_add]

/-- C8 for a 2x2 frame split over two workers. -/
theorem C8_disjoint_destination_bands_witness :
    (∀ i, i < 2 → ∀ a : Int,
      a ∈ (twoxsai_work_cb_rgb565 frame_2x2 (twoxsai_worker 2 (2 * 4) 2 2 4 i)).map Prod.fst ↔
        ∃ r c : Nat, 2 * y_start 2 2 i ≤ r ∧ r < 2 * y_end 2 2 i ∧ c < 2 * 2 ∧
          a = ((r * 4 + c : Nat) : Int)) ∧
    (∀ i j, i < j → j < 2 →
      List.Disjoint
        ((twoxsai_work_cb_rgb565 frame_2x2 (twoxsai_worker 2 (2 * 4) 2 2 4 i)).map Prod.fst)
        ((twoxsai_work_cb_rgb565 frame_2x2 (twoxsai_worker 2 (2 * 4) 2 2 4 j)).map Prod.fst)) ∧
    ((twoxsai_run frame_2x2 2 (2 * 4) 2 2 4).map Prod.fst).Nodup ∧
    (∀ a : Int, a ∈ (twoxsai_run frame_2x2 2 (2 * 4) 2 2 4).map Prod.fst ↔
      ∃ r c : Nat, r < 2 * 2 ∧ c < 2 * 2 ∧ a = ((r * 4 + c : Nat) : Int)) :=
  C8_disjoint_destination_bands frame_2x2 2 2 2 4 4 (by decide) (by decide) (by decide)
    (by decide)

/-! ## The destination frame -/

/-- The low half of the packed word of `twoxsai_write2_rgb565` is its first
argument. -/
theorem write2_low (a b : Nat) (ha : a < 65536) :
    (a ||| ((b <<< 16) % 4294967296)) % 65536 = a := by
  have h1 : (b <<< 16) % 4294967296 = 2 ^ 16 * (b % 65536) := by
    rw [Nat.shiftLeft_eq]; omega
  rw [h1, Nat.lor_comm, ← Nat.mul_add_lt_is_or (by omega) (b % 65536)]
  omega

/-- A loaded pixel is a 16-bit value. -/
theorem load16_lt (mem : Int → Nat) (a : Int) : load16 mem a < 65536 :=
  Nat.mod_lt _ (by decide)

/-- The first store of an iteration of the inner loop puts the loaded source
pixel at `out`. -/
theorem pixel_stores_head (mem : Int → Nat) (nl ds : Nat) (inp out : Int) :
    (out, load16 mem inp) ∈ twoxsai_pixel_stores mem nl ds inp out := by
  simp only [twoxsai_pixel_stores, twoxsai_write2_rgb565, twoxsai_declare_variables,
    twoxsai_sample_addrs, Nbhd.map, Int.add_zero]
  rw [write2_low _ _ (load16_lt mem inp)]
  simp

/-- Stores to other cells leave a cell unchanged. -/
theorem apply_stores_of_not_mem (ws : List (Int × Nat)) (out : Int → Nat) (a : Int)
    (h : a ∉ ws.map Prod.fst) : apply_stores out ws a = out a := by
  induction ws generalizing out with
  | nil => rfl
  | cons w ws ih =>
    simp only [List.map_cons, List.mem_cons, not_or] at h
    show apply_stores (store16 out w) ws a = out a
    rw [ih (store16 out w) h.2]
    simp [store16, h.1]

/-- When no cell is stored twice, a cell holds the value of its store. -/
theorem apply_stores_of_mem (ws : List (Int × Nat)) (out : Int → Nat) (a : Int) (v : Nat)
    (hnd : (ws.map Prod.fst).Nodup) (h : (a, v) ∈ ws) : apply_stores out ws a = v := by
  induction ws generalizing out with
  | nil => simp at h
  | cons w ws ih =>
    simp only [List.map_cons, List.nodup_cons] at hnd
    show apply_stores (store16 out w) ws a = v
    rcases List.mem_cons.mp h with heq | hin
    · subst heq
      rw [apply_stores_of_not_mem ws _ a hnd.1]
      simp [store16]
    · exact ih (store16 out w) hnd.2 hin

/-- The run stores source pixel `(x, y)` at destination cell `(2x, 2y)`. -/
theorem top_left_store_mem_run (mem : Int → Nat) (N W H ss ds x y : Nat)
    (hN : 0 < N) (hHN : H * N < 4294967296)
    (hss : ss < 4294967296) (hds32 : 2 * ds < 4294967296) (hx : x < W) (hy : y < H) :
    (((2 * y * ds + 2 * x : Nat) : Int), load16 mem ((y * ss + x : Nat) : Int))
      ∈ twoxsai_run mem N (2 * ds) W H (2 * ss) := by
  obtain ⟨i, hi, h1, h2⟩ := slice_exists H N y hN hHN hy
  rw [twoxsai_run, twoxsai_generic_packets, List.mem_flatMap]
  refine ⟨twoxsai_worker N (2 * ds) W H (2 * ss) i,
    List.mem_map.mpr ⟨i, List.mem_range.mpr hi, rfl⟩, ?_⟩
  rw [work_cb_trace mem N W H ss ds i hN hHN hi hss hds32, List.mem_flatMap]
  refine ⟨y, List.mem_range'_1.mpr ⟨h1, by omega⟩, ?_⟩
  rw [List.mem_flatMap]
  exact ⟨x, List.mem_range'_1.mpr ⟨Nat.zero_le x, by omega⟩, pixel_stores_head mem _ ds _ _⟩

/-- C5: for a frame of `W` x `H` pixels, source stride `ss` and destination
stride `ds >= 2W` (both in pixels), and any worker count `N >= 1`, after running
all work packets the destination cell at column `2x` of row `2y` holds the
source pixel at column `x` of row `y`. -/
theorem C5_top_left_identity (mem out0 : Int → Nat) (N W H ss ds x y : Nat)
    (hN : 0 < N) (hHN : H * N < 4294967296)
    (hss : ss < 4294967296) (hds32 : 2 * ds < 4294967296) (hds : 2 * W ≤ ds)
    (hx : x < W) (hy : y < H) :
    twoxsai_output mem out0 N (2 * ds) W H (2 * ss) (((2 * y) * ds + 2 * x : Nat) : Int)
      = load16 mem ((y * ss + x : Nat) : Int) := by
  unfold twoxsai_output
  apply apply_stores_of_mem
  · rw [run_addrs_any mem N W H (2 * ss) ds hN hHN hds32]
    exact band_addrs_nodup ds W 0 H hds
  · exact top_left_store_mem_run mem N W H ss ds x y hN hHN hss hds32 hx hy

/-- C5 for the lower right pixel of the 2x2 test frame with two workers. -/
theorem C5_top_left_identity_witness :
    twoxsai_output frame_2x2 blank 2 (2 * 4) 2 2 (2 * 2) (((2 * 1) * 4 + 2 * 1 : Nat) : Int)
      = load16 frame_2x2 ((1 * 2 + 1 : Nat) : Int) :=
  C5_top_left_identity frame_2x2 blank 2 2 2 2 4 1 1 (by decide) (by decide) (by decide)
    (by decide) (by decide) (by decide) (by decide)

/-! ## Behaviour at slice and frame boundaries -/

/-- C1: on the 2x2 test frame (black row over white row) the cell below and to
the right of the first source pixel is 0 when one worker runs the whole frame
and 0x7BEF when two workers run one row each, so the two output frames differ. -/
theorem C1_two_workers_change_output :
    twoxsai_output frame_2x2 blank 1 8 2 2 4 5 = 0 ∧
    twoxsai_output frame_2x2 blank 2 8 2 2 4 5 = 0x7BEF ∧
    twoxsai_output frame_2x2 blank 1 8 2 2 4 ≠ twoxsai_output frame_2x2 blank 2 8 2 2 4 := by
  have h1 : twoxsai_output frame_2x2 blank 1 8 2 2 4 5 = 0 := by decide
  have h2 : twoxsai_output frame_2x2 blank 2 8 2 2 4 5 = 0x7BEF := by decide
  refine ⟨h1, h2, ?_⟩
  intro h
  rw [h, h2] at h1
  exact absurd h1 (by decide)


/-- C4: two rows run by one worker. The single work packet covers both rows
and has its `last` field set, so the stride `nextline` of the call is 0 also
for row 0, which is not the last row: the loads of the first pixel are those of
`twoxsai_declare_variables` with `nextline = 0`, and sample C is loaded from
the address of A (0), not from the pixel below it (address 2). -/
theorem C4_nextline_zero_on_first_row :
    (twoxsai_generic_packets 1 8 2 2 4).map (fun thr => (thr.height, thr.last)) = [(2, 1)] ∧
    twoxsai_nextline (twoxsai_worker 1 8 2 2 4 0).last 2 = 0 ∧
    (twoxsai_run_loads 1 8 2 2 4).take 15 = (twoxsai_sample_addrs 0 0).toList ∧
    (twoxsai_sample_addrs 0 0).colorC = (twoxsai_sample_addrs 0 0).colorA ∧
    (twoxsai_sample_addrs 0 0).colorC ≠ 2 := by
  decide

/-- C7: two rows split over two workers. Worker 0 runs row 0 with its `last`
field clear, so `nextline` is the source stride 2 and the samples I, E, F, J of
the first pixel are loaded from the addresses -3, -2, -1, 0 in front of the
frame instead of the addresses of G, A, B, K. -/
theorem C7_first_row_loads_above_frame :
    (twoxsai_worker 2 8 2 2 4 0).first = 0 ∧ (twoxsai_worker 2 8 2 2 4 0).last = 0 ∧
    (twoxsai_work_cb_rgb565_loads (twoxsai_worker 2 8 2 2 4 0)).take 15 =
      [-3, -2, -1, 0, -1, 0, 1, 2, 1, 2, 3, 4, 3, 4, 5] ∧
    (twoxsai_sample_addrs 0 2).colorE ≠ (twoxsai_sample_addrs 0 2).colorA ∧
    (-2 : Int) ∈ twoxsai_run_loads 2 8 2 2 4 := by
  decide

/-- C6, as stated, fails: for the 1x1 frame run by one worker not every load
lies inside the frame; sample G is loaded from address -1. -/
theorem C6_loads_outside_1x1_frame :
    ¬ (∀ a ∈ twoxsai_run_loads 1 4 1 1 2, in_frame 1 1 1 a) := by
  decide

/-- The loads of one pixel when `nextline` is 0 all lie in its own row, one
column to the left up to two columns to the right. -/
theorem pixel_loads_nextline_zero (inp out a : Int)
    (h : a ∈ twoxsai_pixel_loads 0 inp out) :
    a = inp - 1 ∨ a = inp ∨ a = inp + 1 ∨ a = inp + 2 := by
  simp only [twoxsai_pixel_loads, twoxsai_sample_addrs, Nbhd.toList, List.mem_cons,
    List.mem_singleton, List.not_mem_nil, or_false] at h
  omega

/-- An address in front of the buffer, or at a column from `W` on of a one-row
frame, is outside the frame. -/
theorem not_in_frame_one_row (W ss : Nat) (a : Int) (h : a < 0 ∨ (W : Int) ≤ a) :
    ¬ in_frame W 1 ss a := by
  rintro ⟨h0, h1, h2⟩
  rcases h with h | h
  · omega
  · have hq0 : 0 ≤ a / (ss : Int) := Int.ediv_nonneg h0 (Int.natCast_nonneg ss)
    have hq : a / (ss : Int) = 0 := by
      have : a / (ss : Int) < 1 := by exact_mod_cast h1
      omega
    have hdm := Int.emod_add_ediv a (ss : Int)
    rw [hq, Int.mul_zero, Int.add_zero] at hdm
    omega

/-- C6 (amended): for a frame with exactly one row, any width and any worker
count, every sample is loaded from that row, at the column of the pixel being
expanded shifted by -1, 0, 1 or 2; no other row is read, and for a non-empty
row the columns -1, W and W + 1 are among the loaded ones, none of which lies
inside the frame. -/
theorem C6_one_row_loads (N W ss ds : Nat) (hN : 0 < N) (hN32 : N < 4294967296)
    (hss : ss < 4294967296) (hds32 : 2 * ds < 4294967296) :
    (∀ a ∈ twoxsai_run_loads N (2 * ds) W 1 (2 * ss),
      ∃ x : Nat, x < W ∧
        (a = (x : Int) - 1 ∨ a = (x : Int) ∨ a = (x : Int) + 1 ∨ a = (x : Int) + 2)) ∧
    (0 < W → (-1 : Int) ∈ twoxsai_run_loads N (2 * ds) W 1 (2 * ss) ∧
      (W : Int) ∈ twoxsai_run_loads N (2 * ds) W 1 (2 * ss) ∧
      ((W : Int) + 1) ∈ twoxsai_run_loads N (2 * ds) W 1 (2 * ss)) ∧
    (¬ in_frame W 1 ss (-1) ∧ ¬ in_frame W 1 ss (W : Int) ∧
      ¬ in_frame W 1 ss ((W : Int) + 1)) := by
  have hHN : 1 * N < 4294967296 := by omega
  refine ⟨?_, ?_, not_in_frame_one_row W ss _ (Or.inl (by decide)),
    not_in_frame_one_row W ss _ (Or.inr (Int.le_refl _)),
    not_in_frame_one_row W ss _ (Or.inr (by omega))⟩
  · intro a ha
    rw [twoxsai_run_loads, twoxsai_generic_packets, List.mem_flatMap] at ha
    obtain ⟨thr, hthr, ha⟩ := ha
    obtain ⟨i, hi, rfl⟩ := List.mem_map.mp hthr
    rw [List.mem_range] at hi
    rw [work_cb_loads_trace N W 1 ss ds i hN hHN hi hss hds32, List.mem_flatMap] at ha
    obtain ⟨Y, hY, ha⟩ := ha
    rw [List.mem_flatMap] at ha
    obtain ⟨x, hx, ha⟩ := ha
    rw [List.mem_range'_1] at hY hx
    have hle : y_end N 1 i ≤ 1 := y_start_le 1 N (i + 1) hN hHN hi
    have hend : y_end N 1 i = 1 := by omega
    have hY0 : Y = 0 := by omega
    have hlast : (twoxsai_worker N (2 * ds) W 1 (2 * ss) i).last = 1 := by
      simp [twoxsai_worker, hend]
    rw [hlast] at ha
    have hnl : twoxsai_nextline 1 ss = 0 := by simp [twoxsai_nextline]
    rw [hnl, hY0] at ha
    have h := pixel_loads_nextline_zero _ _ _ ha
    refine ⟨x, by omega, ?_⟩
    simp only [Nat.zero_mul, Nat.zero_add] at h
    exact h
  · intro hW
    have hi : N - 1 < N := by omega
    have hs : y_start N 1 (N - 1) = 0 := by
      rw [y_start_eq 1 N (N - 1) hHN (by omega)]
      exact Nat.div_eq_of_lt (by omega)
    have he : y_end N 1 (N - 1) = 1 := by
      rw [y_end_eq_y_start, Nat.sub_add_cancel hN]
      exact y_start_last 1 N hN hHN
    have hlast : (twoxsai_worker N (2 * ds) W 1 (2 * ss) (N - 1)).last = 1 := by
      simp [twoxsai_worker, he]
    have hnl : twoxsai_nextline 1 ss = 0 := by simp [twoxsai_nextline]
    have key : ∀ (x : Nat) (a : Int), x < W →
        a ∈ twoxsai_pixel_loads 0 ((0 * ss + x : Nat) : Int) ((2 * 0 * ds + 2 * x : Nat) : Int) →
        a ∈ twoxsai_run_loads N (2 * ds) W 1 (2 * ss) := by
      intro x a hx ha
      rw [twoxsai_run_loads, twoxsai_generic_packets, List.mem_flatMap]
      refine ⟨twoxsai_worker N (2 * ds) W 1 (2 * ss) (N - 1),
        List.mem_map.mpr ⟨N - 1, List.mem_range.mpr hi, rfl⟩, ?_⟩
      rw [work_cb_loads_trace N W 1 ss ds (N - 1) hN hHN hi hss hds32, List.mem_flatMap,
        hlast, hnl, hs, he]
      refine ⟨0, List.mem_range'_1.mpr ⟨Nat.le_refl 0, by omega⟩, ?_⟩
      rw [List.mem_flatMap]
      exact ⟨x, List.mem_range'_1.mpr ⟨Nat.zero_le x, by omega⟩, ha⟩
    refine ⟨?_, ?_, ?_⟩
    · apply key 0 (-1) hW
      simp [twoxsai_pixel_loads, twoxsai_sample_addrs, Nbhd.toList]
    · apply key (W - 1) (W : Int) (by omega)
      simp only [twoxsai_pixel_loads, twoxsai_sample_addrs, Nbhd.toList, List.mem_cons,
        List.mem_singleton, List.not_mem_nil, or_false]
      omega
    · apply key (W - 1) ((W : Int) + 1) (by omega)
      simp only [twoxsai_pixel_loads, twoxsai_sample_addrs, Nbhd.toList, List.mem_cons,
        List.mem_singleton, List.not_mem_nil, or_false]
      omega

/-- C6 (amended) for the 1x1 frame run by one worker. -/
theorem C6_one_row_loads_witness :
    (∀ a ∈ twoxsai_run_loads 1 (2 * 2) 1 1 (2 * 1),
      ∃ x : Nat, x < 1 ∧
        (a = (x : Int) - 1 ∨ a = (x : Int) ∨ a = (x : Int) + 1 ∨ a = (x : Int) + 2)) ∧
    (0 < 1 → (-1 : Int) ∈ twoxsai_run_loads 1 (2 * 2) 1 1 (2 * 1) ∧
      ((1 : Nat) : Int) ∈ twoxsai_run_loads 1 (2 * 2) 1 1 (2 * 1) ∧
      (((1 : Nat) : Int) + 1) ∈ twoxsai_run_loads 1 (2 * 2) 1 1 (2 * 1)) ∧
    (¬ in_frame 1 1 1 (-1) ∧ ¬ in_frame 1 1 1 ((1 : Nat) : Int) ∧
      ¬ in_frame 1 1 1 (((1 : Nat) : Int) + 1)) :=
  C6_one_row_loads 1 1 1 2 (by decide) (by decide) (by decide) (by decide)

/-! ## Colour math: the 4-way blend, idempotence and the scores -/

/-- The 4-way blend in terms of channels: each channel is averaged on its own. -/
theorem interpolate2_rgb565_chan (r g b r2 g2 b2 r3 g3 b3 r4 g4 b4 : Nat)
    (hr : r < 32) (hg : g < 64) (hb : b < 32) (hr2 : r2 < 32) (hg2 : g2 < 64) (hb2 : b2 < 32)
    (hr3 : r3 < 32) (hg3 : g3 < 64) (hb3 : b3 < 32) (hr4 : r4 < 32) (hg4 : g4 < 64)
    (hb4 : b4 < 32) :
    interpolate2_rgb565 (2048 * r + 32 * g + b) (2048 * r2 + 32 * g2 + b2)
        (2048 * r3 + 32 * g3 + b3) (2048 * r4 + 32 * g4 + b4)
      = 2048 * ((r + r2 + r3 + r4) / 4) + 32 * ((g + g2 + g3 + g4) / 4)
          + (b + b2 + b3 + b4) / 4 := by
  unfold interpolate2_rgb565
  simp only [unpack_chan _ _ _ hr hg hb, unpack_chan _ _ _ hr2 hg2 hb2,
    unpack_chan _ _ _ hr3 hg3 hb3, unpack_chan _ _ _ hr4 hg4 hb4,
    Nat.shiftRight_eq_div_pow, mask_eq]
  have s1 : (2097152 * g + 2048 * r + b + (2097152 * g2 + 2048 * r2 + b2)
        + (2097152 * g3 + 2048 * r3 + b3) + (2097152 * g4 + 2048 * r4 + b4)) % 4294967296
          / 2 ^ 2
      = 524288 * (g + g2 + g3 + g4) + 512 * (r + r2 + r3 + r4) + (b + b2 + b3 + b4) / 4 := by
    omega
  rw [s1]
  have d1 : (524288 * (g + g2 + g3 + g4) + 512 * (r + r2 + r3 + r4) + (b + b2 + b3 + b4) / 4)
      / 2097152 = (g + g2 + g3 + g4) / 4 := by omega
  have d2 : (524288 * (g + g2 + g3 + g4) + 512 * (r + r2 + r3 + r4) + (b + b2 + b3 + b4) / 4)
      / 2048 = 256 * (g + g2 + g3 + g4) + (r + r2 + r3 + r4) / 4 := by omega
  have c1 : (524288 * (g + g2 + g3 + g4) + 512 * (r + r2 + r3 + r4) + (b + b2 + b3 + b4) / 4)
      / 2097152 % 64 = (g + g2 + g3 + g4) / 4 := by rw [d1]; omega
  have c2 : (524288 * (g + g2 + g3 + g4) + 512 * (r + r2 + r3 + r4) + (b + b2 + b3 + b4) / 4)
      / 2048 % 32 = (r + r2 + r3 + r4) / 4 := by rw [d2]; omega
  have c3 : (524288 * (g + g2 + g3 + g4) + 512 * (r + r2 + r3 + r4) + (b + b2 + b3 + b4) / 4)
      % 32 = (b + b2 + b3 + b4) / 4 := by omega
  rw [c1, c2, c3]
  have key := repack_eq ((g + g2 + g3 + g4) / 4) ((r + r2 + r3 + r4) / 4)
    ((b + b2 + b3 + b4) / 4) (by omega) (by omega) (by omega)
  rw [Nat.shiftRight_eq_div_pow] at key
  exact key

/-- C11: for 16-bit pixels every channel of `interpolate2_rgb565 A B C D` is
the truncating average of the four input channels. -/
theorem C11_blend4_channel_average (A B C D : Nat)
    (hA : A < 65536) (hB : B < 65536) (hC : C < 65536) (hD : D < 65536) :
    chan_lo (interpolate2_rgb565 A B C D)
      = (chan_lo A + chan_lo B + chan_lo C + chan_lo D) / 4 ∧
    chan_mid (interpolate2_rgb565 A B C D)
      = (chan_mid A + chan_mid B + chan_mid C + chan_mid D) / 4 ∧
    chan_hi (interpolate2_rgb565 A B C D)
      = (chan_hi A + chan_hi B + chan_hi C + chan_hi D) / 4 := by
  obtain ⟨r, g, b, hr, hg, hb, rfl⟩ := chan_split A hA
  obtain ⟨r2, g2, b2, hr2, hg2, hb2, rfl⟩ := chan_split B hB
  obtain ⟨r3, g3, b3, hr3, hg3, hb3, rfl⟩ := chan_split C hC
  obtain ⟨r4, g4, b4, hr4, hg4, hb4, rfl⟩ := chan_split D hD
  rw [interpolate2_rgb565_chan r g b r2 g2 b2 r3 g3 b3 r4 g4 b4 hr hg hb hr2 hg2 hb2
    hr3 hg3 hb3 hr4 hg4 hb4]
  obtain ⟨a1, a2, a3⟩ := chan_of_triple r g b hr hg hb
  obtain ⟨a4, a5, a6⟩ := chan_of_triple r2 g2 b2 hr2 hg2 hb2
  obtain ⟨a7, a8, a9⟩ := chan_of_triple r3 g3 b3 hr3 hg3 hb3
  obtain ⟨e1, e2, e3⟩ := chan_of_triple r4 g4 b4 hr4 hg4 hb4
  obtain ⟨c1, c2, c3⟩ := chan_of_triple ((r + r2 + r3 + r4) / 4) ((g + g2 + g3 + g4) / 4)
    ((b + b2 + b3 + b4) / 4) (by omega) (by omega) (by omega)
  rw [a1, a2, a3, a4, a5, a6, a7, a8, a9, e1, e2, e3, c1, c2, c3]
  exact ⟨rfl, rfl, rfl⟩

/-- C11 at four sample pixels. -/
theorem C11_blend4_channel_average_witness :
    chan_lo (interpolate2_rgb565 0x1234 0xFFFF 0x0000 0x8410)
      = (chan_lo 0x1234 + chan_lo 0xFFFF + chan_lo 0x0000 + chan_lo 0x8410) / 4 ∧
    chan_mid (interpolate2_rgb565 0x1234 0xFFFF 0x0000 0x8410)
      = (chan_mid 0x1234 + chan_mid 0xFFFF + chan_mid 0x0000 + chan_mid 0x8410) / 4 ∧
    chan_hi (interpolate2_rgb565 0x1234 0xFFFF 0x0000 0x8410)
      = (chan_hi 0x1234 + chan_hi 0xFFFF + chan_hi 0x0000 + chan_hi 0x8410) / 4 :=
  C11_blend4_channel_average 0x1234 0xFFFF 0x0000 0x8410 (by decide) (by decide) (by decide)
    (by decide)

/-- Blending a 16-bit pixel with itself gives the pixel back. -/
theorem interpolate_rgb565_self (C : Nat) (hC : C < 65536) : interpolate_rgb565 C C = C := by
  obtain ⟨r, g, b, hr, hg, hb, rfl⟩ := chan_split C hC
  rw [interpolate_rgb565_chan r g b r g b hr hg hb hr hg hb]
  omega

/-- Blending four copies of a 16-bit pixel gives the pixel back. -/
theorem interpolate2_rgb565_self (C : Nat) (hC : C < 65536) :
    interpolate2_rgb565 C C C C = C := by
  obtain ⟨r, g, b, hr, hg, hb, rfl⟩ := chan_split C hC
  rw [interpolate2_rgb565_chan r g b r g b r g b r g b hr hg hb hr hg hb hr hg hb hr hg hb]
  omega

/-- C12: for every 16-bit pixel `C`, `interpolate_rgb565 C C = C` and
`interpolate2_rgb565 C C C C = C`. -/
theorem C12_blend_idempotence (C : Nat) (hC : C < 65536) :
    interpolate_rgb565 C C = C ∧ interpolate2_rgb565 C C C C = C :=
  ⟨interpolate_rgb565_self C hC, interpolate2_rgb565_self C hC⟩

/-- C12 at the pixel 0xABCD. -/
theorem C12_blend_idempotence_witness :
    interpolate_rgb565 0xABCD 0xABCD = 0xABCD ∧
    interpolate2_rgb565 0xABCD 0xABCD 0xABCD 0xABCD = 0xABCD :=
  C12_blend_idempotence 0xABCD (by decide)


/-- C13, as stated, fails: for `A = 0`, `B = C = D = 1` the source counts both
matches of `B` in `y` (`x = 0`, `y = 2`), so `result1_rgb565` is 1 and
`result2_rgb565` is -1, while the counters worded by the specification
(`x = 1`, `y = 1`) give 0 for both scores. -/
theorem C13_score_table_as_worded_fails :
    result1_rgb565 0 1 1 1 = 1 ∧ spec_score_forward 0 1 1 1 = 0 ∧
    result2_rgb565 0 1 1 1 = -1 ∧ spec_score_backward 0 1 1 1 = 0 ∧
    ¬ (∀ A B C D : Nat, result1_rgb565 A B C D = spec_score_forward A B C D ∧
        result2_rgb565 A B C D = spec_score_backward A B C D) := by
  refine ⟨by decide, by decide, by decide, by decide, ?_⟩
  intro h
  exact absurd (h 0 1 1 1).1 (by decide)

/-- The counting of `result1_rgb565` over four arbitrary comparisons. -/
theorem result1_table (p q r s : Prop) [Decidable p] [Decidable q] [Decidable r]
    [Decidable s] :
    (let x0 : Int := 0
     let y0 : Int := 0
     let r0 : Int := 0
     let x1 := if p then x0 + 1 else x0
     let y1 := if p then y0 else if q then y0 + 1 else y0
     let x2 := if r then x1 + 1 else x1
     let y2 := if r then y1 else if s then y1 + 1 else y1
     let r1 := if x2 ≤ 1 then r0 + 1 else r0
     let r2 := if y2 ≤ 1 then r1 - 1 else r1
     r2)
      = (if ((if p then 1 else 0) + (if r then 1 else 0) : Nat) ≤ 1 then (1 : Int) else 0)
        - (if ((if ¬p ∧ q then 1 else 0) + (if ¬r ∧ s then 1 else 0) : Nat) ≤ 1
            then (1 : Int) else 0) := by
  by_cases hp : p <;> by_cases hq : q <;> by_cases hr : r <;> by_cases hs : s <;>
    simp [hp, hq, hr, hs]

/-- The counting of `result2_rgb565` over four arbitrary comparisons. -/
theorem result2_table (p q r s : Prop) [Decidable p] [Decidable q] [Decidable r]
    [Decidable s] :
    (let x0 : Int := 0
     let y0 : Int := 0
     let r0 : Int := 0
     let x1 := if p then x0 + 1 else x0
     let y1 := if p then y0 else if q then y0 + 1 else y0
     let x2 := if r then x1 + 1 else x1
     let y2 := if r then y1 else if s then y1 + 1 else y1
     let r1 := if x2 ≤ 1 then r0 - 1 else r0
     let r2 := if y2 ≤ 1 then r1 + 1 else r1
     r2)
      = (if ((if ¬p ∧ q then 1 else 0) + (if ¬r ∧ s then 1 else 0) : Nat) ≤ 1
            then (1 : Int) else 0)
        - (if ((if p then 1 else 0) + (if r then 1 else 0) : Nat) ≤ 1 then (1 : Int) else 0) := by
  by_cases hp : p <;> by_cases hq : q <;> by_cases hr : r <;> by_cases hs : s <;>
    simp [hp, hq, hr, hs]

/-- C13 (amended): with `x` the number of the samples `C`, `D` equal to `A`
and `y` the number of those that differ from `A` and equal `B`,
`result1_rgb565` is `(1 if x <= 1 else 0) - (1 if y <= 1 else 0)` and
`result2_rgb565` is `(1 if y <= 1 else 0) - (1 if x <= 1 else 0)`. -/
theorem C13_score_table (A B C D : Nat) :
    result1_rgb565 A B C D
      = (if count_x A C D ≤ 1 then 1 else 0) - (if count_y A B C D ≤ 1 then 1 else 0) ∧
    result2_rgb565 A B C D
      = (if count_y A B C D ≤ 1 then 1 else 0) - (if count_x A C D ≤ 1 then 1 else 0) := by
  exact ⟨result1_table (A = C) (B = C) (A = D) (B = D),
    result2_table (A = C) (B = C) (A = D) (B = D)⟩

/-- C14: for all pixels `result2_rgb565 A B C D = - result1_rgb565 A B C D`. -/
theorem C14_score_mirror (A B C D : Nat) :
    result2_rgb565 A B C D = - result1_rgb565 A B C D := by
  have h1 := result1_table (A = C) (B = C) (A = D) (B = D)
  have h2 := result2_table (A = C) (B = C) (A = D) (B = D)
  unfold result1_rgb565 result2_rgb565
  rw [h1, h2]
  omega

/-! ## Size query -/

/-- C17: for widths and heights whose doubles fit in 32 bits,
`twoxsai_generic_output` reports twice the width and twice the height, whatever
the filter instance. -/
theorem C17_dimension_law (data : filter_data) (width height : Nat)
    (hw : 2 * width < 4294967296) (hh : 2 * height < 4294967296) :
    twoxsai_generic_output data width height = (2 * width, 2 * height) := by
  unfold twoxsai_generic_output TWOXSAI_SCALE
  rw [Nat.mod_eq_of_lt (by omega), Nat.mod_eq_of_lt (by omega), Nat.mul_comm width,
    Nat.mul_comm height]

/-- C17 for a 320x240 frame. -/
theorem C17_dimension_law_witness :
    twoxsai_generic_output { threads := 4, in_fmt := 1 } 320 240 = (2 * 320, 2 * 240) :=
  C17_dimension_law { threads := 4, in_fmt := 1 } 320 240 (by decide) (by decide)

/-! ## Rule engine: particular neighbourhoods -/

/-- C15: if every sample of the neighbourhood equals `C`, all four pixels of
the output block equal `C`. -/
theorem C15_flat_field (n : Nbhd Nat) (C : Nat) (h : ∀ s ∈ n.toList, s = C) :
    twoxsai_block n
      = { top_left := C, top_right := C, bottom_left := C, bottom_right := C } := by
  have hA : n.colorA = C := h _ (by simp [Nbhd.toList])
  have hB : n.colorB = C := h _ (by simp [Nbhd.toList])
  have hC : n.colorC = C := h _ (by simp [Nbhd.toList])
  have hD : n.colorD = C := h _ (by simp [Nbhd.toList])
  simp [twoxsai_block, twoxsai_products, hA, hB, hC, hD]

/-- C15 for the neighbourhood that is 0x1234 everywhere. -/
theorem C15_flat_field_witness :
    twoxsai_block (Nbhd.map (fun _ => 0x1234) (scenario_nbhd 0))
      = { top_left := 0x1234, top_right := 0x1234, bottom_left := 0x1234,
          bottom_right := 0x1234 } :=
  C15_flat_field (Nbhd.map (fun _ => 0x1234) (scenario_nbhd 0)) 0x1234 (by decide)

/-- C16, as stated, fails: for `A = 0x0000`, `B = C = D = 0xFFFF` (surrounding
samples 0) the if/else chain takes its second branch (`B == C && A != D`), not
the fourth, and the lower right pixel is `B = 0xFFFF`, which is not
`interpolate2_rgb565 0 0xFFFF 0xFFFF 0xFFFF = 0xBDF7`. -/
theorem C16_scenario_is_not_general_case :
    twoxsai_branch (scenario_nbhd 0) = 2 ∧
    (twoxsai_block (scenario_nbhd 0)).bottom_right = 0xFFFF ∧
    interpolate2_rgb565 0x0000 0xFFFF 0xFFFF 0xFFFF = 0xBDF7 ∧
    ¬ (twoxsai_branch (scenario_nbhd 0) = 4 ∧
        (twoxsai_block (scenario_nbhd 0)).top_left = 0x0000 ∧
        (twoxsai_block (scenario_nbhd 0)).bottom_right
          = interpolate2_rgb565 0x0000 0xFFFF 0xFFFF 0xFFFF) := by
  decide

/-- C16 (amended): for `A = 0x0000` and `B = C = D = 0xFFFF`, whatever the
surrounding samples, the if/else chain takes its second branch (the
anti-diagonal case `B == C && A != D`), the upper left pixel is 0x0000 and the
lower right pixel is `B = 0xFFFF`. -/
theorem C16_scenario (n : Nbhd Nat) (hA : n.colorA = 0x0000) (hB : n.colorB = 0xFFFF)
    (hC : n.colorC = 0xFFFF) (hD : n.colorD = 0xFFFF) :
    twoxsai_branch n = 2 ∧ spec_case n = RuleCase.antidiagonal ∧
    (twoxsai_block n).top_left = 0x0000 ∧ (twoxsai_block n).bottom_right = 0xFFFF := by
  simp [twoxsai_branch, spec_case, twoxsai_block, twoxsai_products, hA, hB, hC, hD]

/-- C16 (amended) for surrounding samples 0. -/
theorem C16_scenario_witness :
    twoxsai_branch (scenario_nbhd 0) = 2 ∧
    spec_case (scenario_nbhd 0) = RuleCase.antidiagonal ∧
    (twoxsai_block (scenario_nbhd 0)).top_left = 0x0000 ∧
    (twoxsai_block (scenario_nbhd 0)).bottom_right = 0xFFFF :=
  C16_scenario (scenario_nbhd 0) rfl rfl rfl rfl

/-! ## Rule engine: symmetry and range -/

/-- The forward score does not depend on the order of its last two samples. -/
theorem result1_rgb565_swap (A B C D : Nat) :
    result1_rgb565 A B C D = result1_rgb565 A B D C := by
  have h1 := result1_table (A = C) (B = C) (A = D) (B = D)
  have h2 := result1_table (A = D) (B = D) (A = C) (B = C)
  unfold result1_rgb565
  rw [h1, h2, Nat.add_comm (if A = C then 1 else 0),
    Nat.add_comm (if ¬A = C ∧ B = C then 1 else 0)]

/-- The backward score does not depend on the order of its last two samples. -/
theorem result2_rgb565_swap (A B C D : Nat) :
    result2_rgb565 A B C D = result2_rgb565 A B D C := by
  have h1 := result2_table (A = C) (B = C) (A = D) (B = D)
  have h2 := result2_table (A = D) (B = D) (A = C) (B = C)
  unfold result2_rgb565
  rw [h1, h2, Nat.add_comm (if A = C then 1 else 0),
    Nat.add_comm (if ¬A = C ∧ B = C then 1 else 0)]

/-- The 4-way blend does not depend on the order of its two middle pixels. -/
theorem interpolate2_rgb565_swap (A B C D : Nat) :
    interpolate2_rgb565 A C B D = interpolate2_rgb565 A B C D := by
  unfold interpolate2_rgb565
  simp only [Nat.add_right_comm]

/-- C19: mirroring the neighbourhood about the I-A-D diagonal leaves the upper
left and the lower right pixel of the block unchanged and exchanges the upper
right with the lower left pixel. -/
theorem C19_transposition_symmetry (n : Nbhd Nat) :
    (twoxsai_block n.transpose).top_left = (twoxsai_block n).top_left ∧
    (twoxsai_block n.transpose).bottom_right = (twoxsai_block n).bottom_right ∧
    (twoxsai_block n.transpose).top_right = (twoxsai_block n).bottom_left ∧
    (twoxsai_block n.transpose).bottom_left = (twoxsai_block n).top_right := by
  obtain ⟨I, E, F, J, G, A, B, K, H, C, D, L, M, N, O⟩ := n
  have hCG : (C = G) = (G = C) := propext eq_comm
  have hEB : (E = B) = (B = E) := propext eq_comm
  have hCB : (C = B) = (B = C) := propext eq_comm
  simp only [Nbhd.transpose, twoxsai_block, twoxsai_products, hCG, hEB, hCB, ne_eq,
    result1_rgb565_swap A C E G, result2_rgb565_swap C A N H, result2_rgb565_swap C A F K,
    result1_rgb565_swap A C O L, interpolate2_rgb565_swap A B C D]
  by_cases hBC : B = C
  · subst hBC
    by_cases hAD : A = D
    · subst hAD
      by_cases hAB : A = B
      · subst hAB
        simp
      · simp [hAB]
        rw [add_right_comm (result1_rgb565 A B G E) (result2_rgb565 B A H N)
          (result2_rgb565 B A K F)]
    · simp [hAD]
  · by_cases hAD : A = D
    · subst hAD
      simp [hBC]
    · simp [hBC, hAD]

/-- The three synthesized pixels are copies or blends of the four inner
samples. -/
theorem products_choice (n : Nbhd Nat) :
    ((twoxsai_products n).product = n.colorA ∨ (twoxsai_products n).product = n.colorB ∨
      (twoxsai_products n).product = interpolate_rgb565 n.colorA n.colorB) ∧
    ((twoxsai_products n).product1 = n.colorA ∨ (twoxsai_products n).product1 = n.colorC ∨
      (twoxsai_products n).product1 = interpolate_rgb565 n.colorA n.colorC) ∧
    ((twoxsai_products n).product2 = n.colorA ∨ (twoxsai_products n).product2 = n.colorB ∨
      (twoxsai_products n).product2
        = interpolate2_rgb565 n.colorA n.colorB n.colorC n.colorD) := by
  unfold twoxsai_products
  simp only []
  refine ⟨?_, ?_, ?_⟩ <;> split_ifs <;> simp

/-- The inner samples and their blends stay within the channel ranges of the
four inner samples. -/
theorem chan_within_candidates (A B C D : Nat)
    (hA : A < 65536) (hB : B < 65536) (hC : C < 65536) (hD : D < 65536) :
    chan_within A B C D A ∧ chan_within A B C D B ∧ chan_within A B C D C ∧
    chan_within A B C D (interpolate_rgb565 A B) ∧
    chan_within A B C D (interpolate_rgb565 A C) ∧
    chan_within A B C D (interpolate2_rgb565 A B C D) := by
  obtain ⟨r, g, b, hr, hg, hb, rfl⟩ := chan_split A hA
  obtain ⟨r2, g2, b2, hr2, hg2, hb2, rfl⟩ := chan_split B hB
  obtain ⟨r3, g3, b3, hr3, hg3, hb3, rfl⟩ := chan_split C hC
  obtain ⟨r4, g4, b4, hr4, hg4, hb4, rfl⟩ := chan_split D hD
  rw [interpolate_rgb565_chan r g b r2 g2 b2 hr hg hb hr2 hg2 hb2,
    interpolate_rgb565_chan r g b r3 g3 b3 hr hg hb hr3 hg3 hb3,
    interpolate2_rgb565_chan r g b r2 g2 b2 r3 g3 b3 r4 g4 b4 hr hg hb hr2 hg2 hb2
      hr3 hg3 hb3 hr4 hg4 hb4]
  obtain ⟨a1, a2, a3⟩ := chan_of_triple r g b hr hg hb
  obtain ⟨a4, a5, a6⟩ := chan_of_triple r2 g2 b2 hr2 hg2 hb2
  obtain ⟨a7, a8, a9⟩ := chan_of_triple r3 g3 b3 hr3 hg3 hb3
  obtain ⟨e1, e2, e3⟩ := chan_of_triple r4 g4 b4 hr4 hg4 hb4
  obtain ⟨c1, c2, c3⟩ := chan_of_triple ((r + r2) / 2) ((g + g2) / 2) ((b + b2) / 2)
    (by omega) (by omega) (by omega)
  obtain ⟨c4, c5, c6⟩ := chan_of_triple ((r + r3) / 2) ((g + g3) / 2) ((b + b3) / 2)
    (by omega) (by omega) (by omega)
  obtain ⟨c7, c8, c9⟩ := chan_of_triple ((r + r2 + r3 + r4) / 4) ((g + g2 + g3 + g4) / 4)
    ((b + b2 + b3 + b4) / 4) (by omega) (by omega) (by omega)
  unfold chan_within min4 max4
  rw [a1, a2, a3, a4, a5, a6, a7, a8, a9, e1, e2, e3, c1, c2, c3, c4, c5, c6, c7, c8, c9]
  clear a1 a2 a3 a4 a5 a6 a7 a8 a9 e1 e2 e3 c1 c2 c3 c4 c5 c6 c7 c8 c9 hA hB hC hD
  refine ⟨⟨⟨?_, ?_⟩, ⟨?_, ?_⟩, ⟨?_, ?_⟩⟩, ⟨⟨?_, ?_⟩, ⟨?_, ?_⟩, ⟨?_, ?_⟩⟩,
    ⟨⟨?_, ?_⟩, ⟨?_, ?_⟩, ⟨?_, ?_⟩⟩, ⟨⟨?_, ?_⟩, ⟨?_, ?_⟩, ⟨?_, ?_⟩⟩,
    ⟨⟨?_, ?_⟩, ⟨?_, ?_⟩, ⟨?_, ?_⟩⟩, ⟨⟨?_, ?_⟩, ⟨?_, ?_⟩, ⟨?_, ?_⟩⟩⟩ <;> omega

/-- C20: `product` is one of `A`, `B`, `interpolate_rgb565 A B`; `product1` is
one of `A`, `C`, `interpolate_rgb565 A C`; `product2` is one of `A`, `B`,
`interpolate2_rgb565 A B C D`; and for 16-bit samples every channel of each of
the four pixels of the output block lies between the minimum and the maximum of
that channel over `A`, `B`, `C`, `D`. -/
theorem C20_no_new_extremes (n : Nbhd Nat) :
    ((twoxsai_products n).product = n.colorA ∨ (twoxsai_products n).product = n.colorB ∨
      (twoxsai_products n).product = interpolate_rgb565 n.colorA n.colorB) ∧
    ((twoxsai_products n).product1 = n.colorA ∨ (twoxsai_products n).product1 = n.colorC ∨
      (twoxsai_products n).product1 = interpolate_rgb565 n.colorA n.colorC) ∧
    ((twoxsai_products n).product2 = n.colorA ∨ (twoxsai_products n).product2 = n.colorB ∨
      (twoxsai_products n).product2
        = interpolate2_rgb565 n.colorA n.colorB n.colorC n.colorD) ∧
    (n.colorA < 65536 → n.colorB < 65536 → n.colorC < 65536 → n.colorD < 65536 →
      chan_within n.colorA n.colorB n.colorC n.colorD (twoxsai_block n).top_left ∧
      chan_within n.colorA n.colorB n.colorC n.colorD (twoxsai_block n).top_right ∧
      chan_within n.colorA n.colorB n.colorC n.colorD (twoxsai_block n).bottom_left ∧
      chan_within n.colorA n.colorB n.colorC n.colorD (twoxsai_block n).bottom_right) := by
  obtain ⟨h1, h2, h3⟩ := products_choice n
  refine ⟨h1, h2, h3, ?_⟩
  intro hA hB hC hD
  obtain ⟨wA, wB, wC, wAB, wAC, wABCD⟩ :=
    chan_within_candidates n.colorA n.colorB n.colorC n.colorD hA hB hC hD
  refine ⟨wA, ?_, ?_, ?_⟩
  · show chan_within _ _ _ _ (twoxsai_products n).product
    rcases h1 with h | h | h <;> rw [h] <;> assumption
  · show chan_within _ _ _ _ (twoxsai_products n).product1
    rcases h2 with h | h | h <;> rw [h] <;> assumption
  · show chan_within _ _ _ _ (twoxsai_products n).product2
    rcases h3 with h | h | h <;> rw [h] <;> assumption

/-- C20 for a neighbourhood with four different inner samples. -/
theorem C20_no_new_extremes_witness :
    ((twoxsai_products sample_nbhd).product = sample_nbhd.colorA ∨
      (twoxsai_products sample_nbhd).product = sample_nbhd.colorB ∨
      (twoxsai_products sample_nbhd).product
        = interpolate_rgb565 sample_nbhd.colorA sample_nbhd.colorB) ∧
    ((twoxsai_products sample_nbhd).product1 = sample_nbhd.colorA ∨
      (twoxsai_products sample_nbhd).product1 = sample_nbhd.colorC ∨
      (twoxsai_products sample_nbhd).product1
        = interpolate_rgb565 sample_nbhd.colorA sample_nbhd.colorC) ∧
    ((twoxsai_products sample_nbhd).product2 = sample_nbhd.colorA ∨
      (twoxsai_products sample_nbhd).product2 = sample_nbhd.colorB ∨
      (twoxsai_products sample_nbhd).product2
        = interpolate2_rgb565 sample_nbhd.colorA sample_nbhd.colorB sample_nbhd.colorC
            sample_nbhd.colorD) ∧
    (chan_within sample_nbhd.colorA sample_nbhd.colorB sample_nbhd.colorC sample_nbhd.colorD
        (twoxsai_block sample_nbhd).top_left ∧
      chan_within sample_nbhd.colorA sample_nbhd.colorB sample_nbhd.colorC sample_nbhd.colorD
        (twoxsai_block sample_nbhd).top_right ∧
      chan_within sample_nbhd.colorA sample_nbhd.colorB sample_nbhd.colorC sample_nbhd.colorD
        (twoxsai_block sample_nbhd).bottom_left ∧
      chan_within sample_nbhd.colorA sample_nbhd.colorB sample_nbhd.colorC sample_nbhd.colorD
        (twoxsai_block sample_nbhd).bottom_right) :=
  ⟨(C20_no_new_extremes sample_nbhd).1, (C20_no_new_extremes sample_nbhd).2.1,
    (C20_no_new_extremes sample_nbhd).2.2.1,
    (C20_no_new_extremes sample_nbhd).2.2.2 (by decide) (by decide) (by decide) (by decide)⟩

/-! ## The slice with the `last` flag set -/

/-- The 4-way blend of `A`, `B`, `A`, `B` is the 2-way blend of `A` and `B`. -/
theorem interpolate2_rgb565_pair (A B : Nat) (hA : A < 65536) (hB : B < 65536) :
    interpolate2_rgb565 A B A B = interpolate_rgb565 A B := by
  obtain ⟨r, g, b, hr, hg, hb, rfl⟩ := chan_split A hA
  obtain ⟨r2, g2, b2, hr2, hg2, hb2, rfl⟩ := chan_split B hB
  rw [interpolate2_rgb565_chan r g b r2 g2 b2 r g b r2 g2 b2 hr hg hb hr2 hg2 hb2
      hr hg hb hr2 hg2 hb2,
    interpolate_rgb565_chan r g b r2 g2 b2 hr hg hb hr2 hg2 hb2]
  omega

/-- The samples loaded with `nextline = 0`: every row of the neighbourhood is
the current row. -/
theorem declare_variables_nextline_zero (mem : Int → Nat) (inp : Int) :
    twoxsai_declare_variables mem inp 0 =
      { colorI := load16 mem (inp - 1), colorE := load16 mem inp
        colorF := load16 mem (inp + 1), colorJ := load16 mem (inp + 2)
        colorG := load16 mem (inp - 1), colorA := load16 mem inp
        colorB := load16 mem (inp + 1), colorK := load16 mem (inp + 2)
        colorH := load16 mem (inp - 1), colorC := load16 mem inp
        colorD := load16 mem (inp + 1), colorL := load16 mem (inp + 2)
        colorM := load16 mem (inp - 1), colorN := load16 mem inp
        colorO := load16 mem (inp + 1) } := by
  simp [twoxsai_declare_variables, twoxsai_sample_addrs, Nbhd.map]

/-- The block of a pixel sampled with `nextline = 0`. -/
theorem block_nextline_zero (mem : Int → Nat) (inp : Int) :
    twoxsai_block (twoxsai_declare_variables mem inp 0) =
      { top_left := load16 mem inp
        top_right := interpolate_rgb565 (load16 mem inp) (load16 mem (inp + 1))
        bottom_left := load16 mem inp
        bottom_right := interpolate_rgb565 (load16 mem inp) (load16 mem (inp + 1)) } := by
  rw [declare_variables_nextline_zero]
  have ha := load16_lt mem inp
  have hb := load16_lt mem (inp + 1)
  generalize load16 mem inp = a at ha ⊢
  generalize load16 mem (inp + 1) = b at hb ⊢
  by_cases hab : a = b
  · subst hab
    simp [twoxsai_block, twoxsai_products, interpolate_rgb565_self a ha]
  · have hba : ¬ b = a := fun h => hab h.symm
    simp [twoxsai_block, twoxsai_products, hab, hba, interpolate_rgb565_self a ha,
      interpolate2_rgb565_pair a b ha hb]

/-- The stores of a pixel sampled with `nextline = 0`. -/
theorem pixel_stores_nextline_zero (mem : Int → Nat) (ds : Nat) (inp out : Int) :
    twoxsai_pixel_stores mem 0 ds inp out = degenerate_stores mem ds inp out := by
  have h := block_nextline_zero mem inp
  have h1 : (twoxsai_declare_variables mem inp 0).colorA = load16 mem inp :=
    congrArg Block.top_left h
  have h2 : (twoxsai_products (twoxsai_declare_variables mem inp 0)).product
      = interpolate_rgb565 (load16 mem inp) (load16 mem (inp + 1)) :=
    congrArg Block.top_right h
  have h3 : (twoxsai_products (twoxsai_declare_variables mem inp 0)).product1
      = load16 mem inp := congrArg Block.bottom_left h
  have h4 : (twoxsai_products (twoxsai_declare_variables mem inp 0)).product2
      = interpolate_rgb565 (load16 mem inp) (load16 mem (inp + 1)) :=
    congrArg Block.bottom_right h
  simp only [twoxsai_pixel_stores, degenerate_stores, h1, h2, h3, h4]

/-- C18: when `twoxsai_generic_rgb565` is called with the `last` flag set, the
block of every source pixel `A` with right neighbour `B` is `A`,
`interpolate_rgb565 A B`, `A`, `interpolate_rgb565 A B`, so the stores of the
call are those of the loop over this block, whatever the other rows hold; this
rests on `interpolate2_rgb565 A B A B = interpolate_rgb565 A B`, and it is the
case of the whole image when the worker count is 1. -/
theorem C18_degenerate_last_slice (mem : Int → Nat) (width height first last : Nat)
    (src dst : Int) (src_stride dst_stride : Nat) (hlast : last ≠ 0) :
    (∀ inp : Int,
      twoxsai_block (twoxsai_declare_variables mem inp (twoxsai_nextline last src_stride)) =
        { top_left := load16 mem inp
          top_right := interpolate_rgb565 (load16 mem inp) (load16 mem (inp + 1))
          bottom_left := load16 mem inp
          bottom_right := interpolate_rgb565 (load16 mem inp) (load16 mem (inp + 1)) }) ∧
    twoxsai_generic_rgb565 mem width height first last src src_stride dst dst_stride
      = twoxsai_rows (degenerate_stores mem dst_stride) width src_stride dst_stride
          height src dst ∧
    (∀ A B : Nat, A < 65536 → B < 65536 →
      interpolate2_rgb565 A B A B = interpolate_rgb565 A B) ∧
    (∀ os W H is : Nat, H < 4294967296 →
      (twoxsai_generic_packets 1 os W H is).map (fun thr => (thr.height, thr.last))
        = [(H, 1)]) := by
  have hnl : twoxsai_nextline last src_stride = 0 := by simp [twoxsai_nextline, hlast]
  refine ⟨?_, ?_, interpolate2_rgb565_pair, ?_⟩
  · intro inp
    rw [hnl]
    exact block_nextline_zero mem inp
  · simp only [twoxsai_generic_rgb565, hnl]
    congr 1
    funext inp out
    exact pixel_stores_nextline_zero mem dst_stride inp out
  · intro os W H is hH
    have hs : y_start 1 H 0 = 0 := y_start_zero H 1
    have he : y_end 1 H 0 = H := by unfold y_end; omega
    have hr : List.range 1 = [0] := rfl
    simp [twoxsai_generic_packets, twoxsai_worker, hr, hs, he]
    exact hH

/-- C18 for the 2x2 test frame run by a single worker. -/
theorem C18_degenerate_last_slice_witness :
    (∀ inp : Int,
      twoxsai_block (twoxsai_declare_variables frame_2x2 inp (twoxsai_nextline 1 2)) =
        { top_left := load16 frame_2x2 inp
          top_right := interpolate_rgb565 (load16 frame_2x2 inp) (load16 frame_2x2 (inp + 1))
          bottom_left := load16 frame_2x2 inp
          bottom_right :=
            interpolate_rgb565 (load16 frame_2x2 inp) (load16 frame_2x2 (inp + 1)) }) ∧
    twoxsai_generic_rgb565 frame_2x2 2 2 0 1 0 2 0 4
      = twoxsai_rows (degenerate_stores frame_2x2 4) 2 2 4 2 0 0 ∧
    (∀ A B : Nat, A < 65536 → B < 65536 →
      interpolate2_rgb565 A B A B = interpolate_rgb565 A B) ∧
    (∀ os W H is : Nat, H < 4294967296 →
      (twoxsai_generic_packets 1 os W H is).map (fun thr => (thr.height, thr.last))
        = [(H, 1)]) :=
  C18_degenerate_last_slice frame_2x2 2 2 0 1 0 0 2 4 (by decide)

end TwoXSai
